import Mathlib

/-!
Verification of the Verbiage terminal chat application (conversation log,
agent registry, response normalizer, backend send policy, command dispatch).
Python functions from the repository are shallowly embedded: JSON-like /
duck-typed Python values become the inductive `Py.PyVal`, raising code is
modelled in `Except Py.PyErr`, and wall-clock timestamps are passed as
explicit string parameters.
-/

namespace Py

/-- Python runtime errors that the embedded code can raise or catch.
`apiError` stands for an exception coming out of the opaque HTTP / SDK
transport layer, carrying its message. -/
inductive PyErr where
  | keyError
  | indexError
  | typeError
  | attributeError
  | valueError
  | jsonError
  | apiError (msg : String)
deriving DecidableEq, Repr

/-- Untyped Python/JSON values as handled by the repository: strings, ints,
floats (as rationals), booleans, `None`, lists, dicts with string keys, and
attribute-bearing objects (SDK response objects). -/
inductive PyVal where
  | vstr (s : String)
  | vint (n : Int)
  | vnum (q : Rat)
  | vbool (b : Bool)
  | vnone
  | vlist (xs : List PyVal)
  | vdict (kvs : List (String × PyVal))
  | vobj (fields : List (String × PyVal))

mutual
/-- Python `==` on the values above (structural; cross-type comparisons are
`False`, as for the JSON-shaped values the code compares). -/
def pyBeq : PyVal → PyVal → Bool
  | .vstr a, .vstr b => a == b
  | .vint a, .vint b => a == b
  | .vnum a, .vnum b => a == b
  | .vbool a, .vbool b => a == b
  | .vnone, .vnone => true
  | .vlist a, .vlist b => pyBeqList a b
  | .vdict a, .vdict b => pyBeqKV a b
  | .vobj a, .vobj b => pyBeqKV a b
  | _, _ => false

/-- Elementwise `==` on lists of values. -/
def pyBeqList : List PyVal → List PyVal → Bool
  | [], [] => true
  | a :: as1, b :: bs1 => pyBeq a b && pyBeqList as1 bs1
  | _, _ => false

/-- Entrywise `==` on key/value lists. -/
def pyBeqKV : List (String × PyVal) → List (String × PyVal) → Bool
  | [], [] => true
  | (k1, a) :: as1, (k2, b) :: bs1 => k1 == k2 && pyBeq a b && pyBeqKV as1 bs1
  | _, _ => false
end

/-- First-match association lookup, the model of Python dict lookup
(parsed JSON objects have unique keys). -/
def plookup (kvs : List (String × PyVal)) (k : String) : Option PyVal :=
  match kvs with
  | [] => none
  | (k1, v) :: rest => if k1 = k then some v else plookup rest k

/-- Python truthiness (`bool(v)`). -/
def pyTruthy : PyVal → Bool
  | .vstr s => !s.isEmpty
  | .vint n => n != 0
  | .vnum q => q != 0
  | .vbool b => b
  | .vnone => false
  | .vlist xs => !xs.isEmpty
  | .vdict kvs => !kvs.isEmpty
  | .vobj _ => true

mutual
/-- `repr(v)` for a Python value (nested positions of `str(v)`). -/
def pyRepr : PyVal → String
  | .vstr s => "\x27" ++ s ++ "\x27"
  | .vint n => toString n
  | .vnum q => toString q
  | .vbool b => if b then "True" else "False"
  | .vnone => "None"
  | .vlist xs => "[" ++ pyReprList xs ++ "]"
  | .vdict kvs => "\x7b" ++ pyReprKVs kvs ++ "\x7d"
  | .vobj _ => "<object>"

/-- Comma-separated `repr` of list elements. -/
def pyReprList : List PyVal → String
  | [] => ""
  | [x] => pyRepr x
  | x :: xs => pyRepr x ++ ", " ++ pyReprList xs

/-- Comma-separated `repr` of dict entries. -/
def pyReprKVs : List (String × PyVal) → String
  | [] => ""
  | [(k, v)] => "\x27" ++ k ++ "\x27: " ++ pyRepr v
  | (k, v) :: kvs => "\x27" ++ k ++ "\x27: " ++ pyRepr v ++ ", " ++ pyReprKVs kvs
end

/-- `str(v)`: the string itself for strings, `repr`-style otherwise. -/
def pyStr : PyVal → String
  | .vstr s => s
  | v => pyRepr v

/-- Subscripting with a string key: `v["k"]`.  Only dicts succeed;
lists/strings raise `TypeError` (non-integer index), as does everything
else. -/
def getItemStr (v : PyVal) (k : String) : Except PyErr PyVal :=
  match v with
  | .vdict kvs =>
      match plookup kvs k with
      | some x => .ok x
      | none => .error .keyError
  | _ => .error .typeError

/-- Subscripting with integer index `v[i]` (for the non-negative indices the
code uses): lists and strings index, dicts raise `KeyError` (no such key
since our dict keys are strings), the rest raise `TypeError`. -/
def getItemInt (v : PyVal) (i : Nat) : Except PyErr PyVal :=
  match v with
  | .vlist xs =>
      match xs.get? i with
      | some x => .ok x
      | none => .error .indexError
  | .vstr s =>
      match s.data.get? i with
      | some c => .ok (.vstr (String.mk [c]))
      | none => .error .indexError
  | .vdict _ => .error .keyError
  | _ => .error .typeError

/-- Attribute access `v.name` for the data attributes the code reads:
only objects carry them; any other value raises `AttributeError`. -/
def getAttr (v : PyVal) (a : String) : Except PyErr PyVal :=
  match v with
  | .vobj fields =>
      match plookup fields a with
      | some x => .ok x
      | none => .error .attributeError
  | _ => .error .attributeError

/-- `v.get(k, default)`: the dict method; on anything that is not a dict the
attribute itself is missing, raising `AttributeError`. -/
def dictGet (v : PyVal) (k : String) (default : PyVal) : Except PyErr PyVal :=
  match v with
  | .vdict kvs =>
      match plookup kvs k with
      | some x => .ok x
      | none => .ok default
  | _ => .error .attributeError

/-- `for x in v`: lists yield elements, strings their characters, dicts
their keys; other values are not iterable. -/
def pyIter (v : PyVal) : Except PyErr (List PyVal) :=
  match v with
  | .vlist xs => .ok xs
  | .vstr s => .ok (s.data.map fun c => .vstr (String.mk [c]))
  | .vdict kvs => .ok (kvs.map fun kv => .vstr kv.1)
  | _ => .error .typeError

/-- `len(v)` for lists, strings and dicts; `TypeError` otherwise. -/
def pyLen (v : PyVal) : Except PyErr Nat :=
  match v with
  | .vlist xs => .ok xs.length
  | .vstr s => .ok s.length
  | .vdict kvs => .ok kvs.length
  | _ => .error .typeError

/-- `x or y` as the code uses it on response fields. -/
def pyOr (x y : PyVal) : PyVal :=
  if pyTruthy x then x else y

/-- Rendering of an exception for f-string error messages (`str(e)`). -/
def errString : PyErr → String
  | .keyError => "KeyError"
  | .indexError => "IndexError"
  | .typeError => "TypeError"
  | .attributeError => "AttributeError"
  | .valueError => "ValueError"
  | .jsonError => "JSONDecodeError"
  | .apiError m => m

/-- An error kind caught by `except (KeyError, IndexError)`. -/
def isKeyOrIndex (e : PyErr) : Bool :=
  e = .keyError || e = .indexError

end Py

/-! ## Response normalizer, dict dialect (`verbiage/api_utils.py`) -/

namespace VApi
open Py

/-- The body of `extract_text_from_response`'s `try` block:
`response["choices"][0]["message"]["content"]`. -/
def drillText (response : PyVal) : Except PyErr PyVal := do
  let cs ← getItemStr response "choices"
  let c0 ← getItemInt cs 0
  let m ← getItemStr c0 "message"
  getItemStr m "content"

/-- `extract_text_from_response` (`verbiage/api_utils.py`): return
`response["choices"][0]["message"]["content"] or ""`; on `KeyError` or
`IndexError` return `str(response)`; other exceptions propagate. -/
def extract_text_from_response (response : PyVal) : Except PyErr PyVal :=
  match drillText response with
  | .ok c => .ok (pyOr c (.vstr ""))
  | .error e => if isKeyOrIndex e then .ok (.vstr (pyStr response)) else .error e

/-- The loop body of `extract_tools_from_response`: accumulate
`tc["function"]["name"]` for each tool call, stopping (and keeping the
partial accumulator) at the first exception. -/
def toolsLoop (acc : List PyVal) : List PyVal → List PyVal × Option PyErr
  | [] => (acc, none)
  | tc :: rest =>
      match (do
        let f ← getItemStr tc "function"
        getItemStr f "name") with
      | .ok n => toolsLoop (acc ++ [n]) rest
      | .error e => (acc, some e)

/-- `extract_tools_from_response` (`verbiage/api_utils.py`): collect the
names in `choices[0].message.tool_calls`; `KeyError`/`IndexError` abort the
collection and the tools gathered so far are returned. -/
def extract_tools_from_response (response : PyVal) : Except PyErr (List PyVal) :=
  match (do
    let cs ← getItemStr response "choices"
    let c0 ← getItemInt cs 0
    let m ← getItemStr c0 "message"
    let tcs ← dictGet m "tool_calls" (.vlist [])
    pyIter tcs) with
  | .error e => if isKeyOrIndex e then .ok [] else .error e
  | .ok items =>
      match toolsLoop [] items with
      | (acc, none) => .ok acc
      | (acc, some e) => if isKeyOrIndex e then .ok acc else .error e

/-- The loop body of `extract_sources_from_response`: keep each annotation
entry whose `"type"` equals `"url_citation"`, appending its
`"url_citation"` payload; the partial list survives an exception. -/
def sourcesLoop (acc : List PyVal) : List PyVal → List PyVal × Option PyErr
  | [] => (acc, none)
  | ann :: rest =>
      match dictGet ann "type" .vnone with
      | .error e => (acc, some e)
      | .ok t =>
          if pyBeq t (.vstr "url_citation") then
            match getItemStr ann "url_citation" with
            | .ok u => sourcesLoop (acc ++ [u]) rest
            | .error e => (acc, some e)
          else sourcesLoop acc rest

/-- `extract_sources_from_response` (`verbiage/api_utils.py`): collect the
`url_citation` payloads of `choices[0].message.annotations`;
`KeyError`/`IndexError` yield the sources gathered so far. -/
def extract_sources_from_response (response : PyVal) : Except PyErr (List PyVal) :=
  match (do
    let cs ← getItemStr response "choices"
    let c0 ← getItemInt cs 0
    let m ← getItemStr c0 "message"
    let anns ← dictGet m "annotations" (.vlist [])
    pyIter anns) with
  | .error e => if isKeyOrIndex e then .ok [] else .error e
  | .ok items =>
      match sourcesLoop [] items with
      | (acc, none) => .ok acc
      | (acc, some e) => if isKeyOrIndex e then .ok acc else .error e

end VApi

/-! ## Helper lemmas on the `Except` embedding -/

namespace Py

/-- Case analysis of an erroring monadic bind. -/
theorem except_bind_error {α β : Type} (a : Except PyErr α) (f : α → Except PyErr β)
    (e : PyErr) (h : a >>= f = .error e) :
    a = .error e ∨ ∃ x, a = .ok x ∧ f x = .error e := by
  cases a <;> simp_all [Bind.bind, Except.bind]

/-- `v["k"]` can only fail with `KeyError` or `TypeError`. -/
theorem getItemStr_error {v : PyVal} {k : String} {e : PyErr}
    (h : getItemStr v k = .error e) : e = .keyError ∨ e = .typeError := by
  unfold getItemStr at h
  cases v <;> simp_all
  split at h <;> simp_all

/-- `v[i]` can only fail with `KeyError`, `IndexError` or `TypeError`. -/
theorem getItemInt_error {v : PyVal} {i : Nat} {e : PyErr}
    (h : getItemInt v i = .error e) :
    e = .keyError ∨ e = .indexError ∨ e = .typeError := by
  unfold getItemInt at h
  cases v <;> simp_all <;> split at h <;> simp_all

end Py

namespace VApi
open Py

/-- The content drill of the normalizer can only fail with `KeyError`,
`IndexError` or `TypeError`. -/
theorem drillText_error {r : PyVal} {e : PyErr} (h : drillText r = .error e) :
    e = .keyError ∨ e = .indexError ∨ e = .typeError := by
  unfold drillText at h
  rcases except_bind_error _ _ _ h with h1 | ⟨cs, h1, h⟩
  · rcases getItemStr_error h1 with h2 | h2 <;> simp [h2]
  rcases except_bind_error _ _ _ h with h2 | ⟨c0, h2, h⟩
  · exact getItemInt_error h2
  rcases except_bind_error _ _ _ h with h3 | ⟨m, h3, h⟩
  · rcases getItemStr_error h3 with h4 | h4 <;> simp [h4]
  rcases getItemStr_error h with h4 | h4 <;> simp [h4]

/-- The canonical chat-completion payload
`{"choices": [{"message": {"content": c}}]}`. -/
def mkChatPayload (c : PyVal) : PyVal :=
  .vdict [("choices", .vlist [.vdict [("message", .vdict [("content", c)])]])]

/-- A chat-completion payload whose `message` carries no `content` field. -/
def chatNoContent : PyVal :=
  .vdict [("choices", .vlist [.vdict [("message", .vdict [])]])]

end VApi

/-! ## C1: totality of the response normalizer -/

/-- C1 (counterexample): the claim says text extraction never raises for any
input, but on the payload `{"choices": [0]}` the drill
`response["choices"][0]["message"]` subscripts the integer `0` and raises
`TypeError`, which `except (KeyError, IndexError)` does not catch. -/
theorem C1_normalizer_raises_counterexample :
    VApi.extract_text_from_response (.vdict [("choices", .vlist [.vint 0])]) =
      .error .typeError := rfl

/-- C1 (amended): text extraction is total only on inputs whose recognized
fields fail by absence: a dict without a `"choices"` entry degrades to the
string coercion of the whole value; a non-dict input (even a plain string)
raises `TypeError`; and `TypeError` is the only exception the extractor can
propagate. -/
theorem C1_normalizer_total_amended :
    (∀ kvs, Py.plookup kvs "choices" = none →
      VApi.extract_text_from_response (.vdict kvs) =
        .ok (.vstr (Py.pyStr (.vdict kvs)))) ∧
    (∀ s, VApi.extract_text_from_response (.vstr s) = .error .typeError) ∧
    (∀ r e, VApi.extract_text_from_response r = .error e → e = .typeError) := by
  refine ⟨?_, ?_, ?_⟩
  · intro kvs h
    unfold VApi.extract_text_from_response VApi.drillText
    simp [Py.getItemStr, h, Bind.bind, Except.bind, Py.isKeyOrIndex]
  · intro s
    rfl
  · intro r e h
    unfold VApi.extract_text_from_response at h
    cases hd : VApi.drillText r with
    | ok c => rw [hd] at h; simp at h
    | error e1 =>
      rw [hd] at h
      by_cases hk : Py.isKeyOrIndex e1 = true
      · simp [hk] at h
      · simp [hk] at h
        rcases VApi.drillText_error hd with h1 | h1 | h1 <;>
          simp_all [Py.isKeyOrIndex]

/-- C1 (witness): on the concrete unrecognized payload `{"a": 1}` the
extractor returns the string coercion of the whole value. -/
theorem C1_normalizer_witness :
    VApi.extract_text_from_response (.vdict [("a", .vint 1)]) =
      .ok (.vstr (Py.pyStr (.vdict [("a", .vint 1)]))) :=
  C1_normalizer_total_amended.1 [("a", .vint 1)] rfl

/-! ## C4: chat-completion dialect extraction -/

/-- C4 (counterexample): the claim says an absent `message.content` field
yields the empty string, but the extractor then hits `KeyError` and degrades
to `str(response)`, which is not empty. -/
theorem C4_absent_content_counterexample :
    VApi.extract_text_from_response VApi.chatNoContent ≠ .ok (.vstr "") := by
  intro h
  have h0 : VApi.extract_text_from_response VApi.chatNoContent =
      .ok (.vstr (Py.pyStr VApi.chatNoContent)) := rfl
  rw [h0] at h
  injection h with h1
  injection h1 with h2
  exact absurd h2 (by decide)

/-- C4 (amended): on every chat-completion-shaped payload the extractor
returns `choices[0].message.content or ""`; content `"hello"` gives the
triple `("hello", [], [])`; empty or `None` content gives `""`; an absent
content field falls through to the string coercion of the whole value
instead of the empty string. -/
theorem C4_chat_extraction_amended :
    (∀ (kvs c0kvs mkvs : List (String × Py.PyVal)) (rest : List Py.PyVal)
        (c : Py.PyVal),
      Py.plookup kvs "choices" = some (.vlist (.vdict c0kvs :: rest)) →
      Py.plookup c0kvs "message" = some (.vdict mkvs) →
      Py.plookup mkvs "content" = some c →
      VApi.extract_text_from_response (.vdict kvs) = .ok (Py.pyOr c (.vstr ""))) ∧
    (VApi.extract_text_from_response (VApi.mkChatPayload (.vstr "hello")) =
        .ok (.vstr "hello") ∧
      VApi.extract_tools_from_response (VApi.mkChatPayload (.vstr "hello")) = .ok [] ∧
      VApi.extract_sources_from_response (VApi.mkChatPayload (.vstr "hello")) = .ok []) ∧
    (VApi.extract_text_from_response (VApi.mkChatPayload (.vstr "")) = .ok (.vstr "") ∧
      VApi.extract_text_from_response (VApi.mkChatPayload .vnone) = .ok (.vstr "")) ∧
    VApi.extract_text_from_response VApi.chatNoContent =
      .ok (.vstr (Py.pyStr VApi.chatNoContent)) := by
  refine ⟨?_, ⟨rfl, rfl, rfl⟩, ⟨rfl, rfl⟩, rfl⟩
  intro kvs c0kvs mkvs rest c h1 h2 h3
  unfold VApi.extract_text_from_response VApi.drillText
  simp [Py.getItemStr, Py.getItemInt, h1, h2, h3, Bind.bind, Except.bind]

/-- C4 (witness): the general chat-completion equation instantiated at the
canonical payload with content `"x"`. -/
theorem C4_chat_extraction_witness :
    VApi.extract_text_from_response
        (.vdict [("choices", .vlist [.vdict [("message",
          .vdict [("content", .vstr "x")])]])]) =
      .ok (Py.pyOr (.vstr "x") (.vstr "")) :=
  C4_chat_extraction_amended.1 _ _ _ [] (.vstr "x") rfl rfl rfl

/-! ## Persisted JSON document stores -/

namespace Store

/-- A persisted JSON file as the loader sees it: either its text fails to
parse (`json.load` raises `JSONDecodeError`), or it parses to a value. -/
inductive RawFile where
  | notJson
  | json (v : Py.PyVal)

/-- A directory of JSON documents, filename to content. -/
abbrev FileStore := List (String × RawFile)

/-- File-by-name lookup (`path.exists()` + `open`). -/
def lookupFile (store : FileStore) (name : String) : Option RawFile :=
  match store with
  | [] => none
  | (n, f) :: rest => if n = name then some f else lookupFile rest name

/-- `path.unlink()`: drop the file with the given name. -/
def removeFile : FileStore → String → FileStore
  | [], _ => []
  | (n, f) :: rest, name =>
      if n = name then removeFile rest name
      else (n, f) :: removeFile rest name

end Store

/-! ## Conversation log model (`src/conversation.py`) -/

namespace SrcConv

/-- One message of a conversation document.  `content`, the tool names and
the sources hold whatever values the caller passed (for user messages a
string; for assistant messages the normalizer's output). -/
structure Message where
  role : String
  content : Py.PyVal
  timestamp : String
  tools_used : List Py.PyVal
  sources : List Py.PyVal

/-- The current conversation document. -/
structure Conversation where
  id : String
  title : String
  messages : List Message
  created_at : String
  updated_at : String

/-- `self.current_conversation`: at most one conversation is current. -/
abbrev ConvState := Option Conversation

/-- `create_new_conversation`: fresh conversation titled with the first 50
characters of the first message (`cid`/`iso` are the two renderings of the
creation timestamp). -/
def create_new_conversation (cid iso first_message : String) : Conversation :=
  { id := cid
    title := first_message.take 50
    messages := []
    created_at := iso
    updated_at := iso }

/-- `add_message`: append to the current conversation, refreshing
`updated_at`; raises `ValueError` when no conversation is current.
`tools_used or []` / `sources or []` supply the defaults. -/
def add_message : ConvState → String → String → Py.PyVal →
    Option (List Py.PyVal) → Option (List Py.PyVal) → Except Py.PyErr ConvState
  | none, _, _, _, _, _ => .error .valueError
  | some conv, now, role, content, tools_used, sources => .ok (some
      { conv with
        messages := conv.messages ++
          [{ role := role, content := content, timestamp := now
             tools_used := tools_used.getD [], sources := sources.getD [] }]
        updated_at := now })

/-- `delete_last_message`: pop the tail message; `False` when the log is
empty or no conversation is current. -/
def delete_last_message : ConvState → String → Bool × ConvState
  | none, _ => (false, none)
  | some conv, now =>
      if conv.messages.isEmpty then (false, some conv)
      else (true, some { conv with messages := conv.messages.dropLast
                                   updated_at := now })

/-- `delete_message` (1-based): `False` when no conversation is current or
the index is out of range; otherwise `messages.pop(index - 1)`. -/
def delete_message : ConvState → String → Int → Bool × ConvState
  | none, _, _ => (false, none)
  | some conv, now, message_index =>
      if message_index < 1 ∨ message_index > conv.messages.length then
        (false, some conv)
      else
        (true, some { conv with
          messages := conv.messages.eraseIdx (message_index - 1).toNat
          updated_at := now })

/-- `edit_message` (1-based): `False` when out of range; otherwise replace
the message's content, refresh its timestamp and `updated_at`. -/
def edit_message : ConvState → String → Int → String → Bool × ConvState
  | none, _, _, _ => (false, none)
  | some conv, now, message_index, new_content =>
      if message_index < 1 ∨ message_index > conv.messages.length then
        (false, some conv)
      else
        match conv.messages.get? ((message_index - 1).toNat) with
        | none => (false, some conv)
        | some m =>
            (true, some { conv with
              messages := conv.messages.set (message_index - 1).toNat
                { m with content := .vstr new_content, timestamp := now }
              updated_at := now })

/-- `truncate_history` (1-based): keep `messages[:index]`; `False` when out
of range or no conversation is current. -/
def truncate_history : ConvState → String → Int → Bool × ConvState
  | none, _, _ => (false, none)
  | some conv, now, message_index =>
      if message_index < 1 ∨ message_index > conv.messages.length then
        (false, some conv)
      else
        (true, some { conv with
          messages := conv.messages.take message_index.toNat
          updated_at := now })

/-- `get_message` (1-based): `None` when out of range or no conversation is
current. -/
def get_message : ConvState → Int → Option Message
  | none, _ => none
  | some conv, message_index =>
      if message_index < 1 ∨ message_index > conv.messages.length then none
      else conv.messages.get? ((message_index - 1).toNat)

/-- `get_message_count`. -/
def get_message_count : ConvState → Nat
  | none => 0
  | some conv => conv.messages.length

end SrcConv

namespace SrcConv
open Store Py

/-- `conversation_{id}.json`. -/
def convFilename (conversation_id : String) : String :=
  "conversation_" ++ conversation_id ++ ".json"

/-- `load_conversation`: `None` when the file does not exist; otherwise
`json.load` the document (raising `JSONDecodeError` on malformed content)
and return it (the app also makes it current). -/
def load_conversation (store : FileStore) (conversation_id : String) :
    Except PyErr (Option PyVal) :=
  match lookupFile store (convFilename conversation_id) with
  | none => .ok none
  | some .notJson => .error .jsonError
  | some (.json v) => .ok (some v)

/-- A listing entry `{id, title, created_at, message_count}`. -/
structure ConvSummary where
  id : PyVal
  title : PyVal
  created_at : PyVal
  message_count : Nat

/-- The `try` body of one `list_conversations` iteration: build the summary
of a parsed document; a missing key (`KeyError`) is caught and the document
skipped, while a type mismatch propagates. -/
def summarize1 (v : PyVal) : Except PyErr (Option ConvSummary) :=
  match (do
    let i ← getItemStr v "id"
    let t ← getItemStr v "title"
    let c ← getItemStr v "created_at"
    let ms ← getItemStr v "messages"
    let n ← pyLen ms
    pure (ConvSummary.mk i t c n)) with
  | .ok s => .ok (some s)
  | .error .keyError => .ok none
  | .error e => .error e

/-- Python `<` between two sort keys; mixed non-numeric types raise
`TypeError`. -/
def pyLt (a b : PyVal) : Except PyErr Bool :=
  match a, b with
  | .vstr x, .vstr y => .ok (decide (x < y))
  | .vint x, .vint y => .ok (decide (x < y))
  | .vnum x, .vnum y => .ok (decide (x < y))
  | .vint x, .vnum y => .ok (decide ((x : Rat) < y))
  | .vnum x, .vint y => .ok (decide (x < (y : Rat)))
  | _, _ => .error .typeError

/-- Insert one element into a descending-by-key sorted list, comparing with
`pyLt` (comparison errors propagate like Python `sort`'s `TypeError`). -/
def insertDescE {α : Type} (key : α → PyVal) (x : α) :
    List α → Except PyErr (List α)
  | [] => .ok [x]
  | y :: ys => do
      let lt ← pyLt (key y) (key x)
      if lt then .ok (x :: y :: ys)
      else do
        let t ← insertDescE key x ys
        .ok (y :: t)

/-- `list.sort(key=..., reverse=True)` as an insertion sort in the
exception monad. -/
def sortDescE {α : Type} (key : α → PyVal) : List α → Except PyErr (List α)
  | [] => .ok []
  | x :: xs => do
      let t ← sortDescE key xs
      insertDescE key x t

/-- `name.startswith(p)`, computed structurally on the character lists. -/
def strStartsWith (s p : String) : Bool :=
  p.data.isPrefixOf s.data

/-- `name.endswith(p)`, computed structurally on the character lists. -/
def strEndsWith (s p : String) : Bool :=
  p.data.reverse.isPrefixOf s.data.reverse

/-- `list_conversations`'s collection loop over the directory: glob
`conversation_*.json`, skip documents that fail to parse or lack a key. -/
def collectSummaries : FileStore → Except PyErr (List ConvSummary)
  | [] => .ok []
  | (name, f) :: rest =>
      if strStartsWith name "conversation_" && strEndsWith name ".json" then
        match f with
        | .notJson => collectSummaries rest
        | .json v =>
            match summarize1 v with
            | .ok none => collectSummaries rest
            | .ok (some s) => do
                let l ← collectSummaries rest
                pure (s :: l)
            | .error e => .error e
      else collectSummaries rest

/-- `list_conversations`: collect summaries, then sort by `created_at`
descending. -/
def list_conversations (store : FileStore) : Except PyErr (List ConvSummary) := do
  let l ← collectSummaries store
  sortDescE (fun s => s.created_at) l

end SrcConv

namespace SrcConv

/-- Entries strictly before the erased index are unchanged. -/
theorem get?_eraseIdx_lt {α : Type} (l : List α) (i j : Nat) (h : j < i) :
    (l.eraseIdx i).get? j = l.get? j := by
  induction l generalizing i j with
  | nil => simp [List.eraseIdx]
  | cons x xs ih =>
      cases i with
      | zero => omega
      | succ i1 =>
          cases j with
          | zero => simp [List.eraseIdx]
          | succ j1 => simpa [List.eraseIdx] using ih i1 j1 (by omega)

/-- Entries at or after the erased index shift down by one. -/
theorem get?_eraseIdx_ge {α : Type} (l : List α) (i j : Nat) (h : i ≤ j) :
    (l.eraseIdx i).get? j = l.get? (j + 1) := by
  induction l generalizing i j with
  | nil => simp [List.eraseIdx]
  | cons x xs ih =>
      cases i with
      | zero => simp [List.eraseIdx]
      | succ i1 =>
          cases j with
          | zero => omega
          | succ j1 => simpa [List.eraseIdx] using ih i1 j1 (by omega)

/-- The entry written by `List.set` is read back. -/
theorem get?_set_self {α : Type} (l : List α) (n : Nat) (a : α)
    (h : n < l.length) : (l.set n a).get? n = some a := by
  induction l generalizing n with
  | nil => simp at h
  | cons x xs ih =>
      cases n with
      | zero => rfl
      | succ n1 => simpa using ih n1 (by simpa using h)

end SrcConv

/-! ## C10: failed conversation mutations leave the state unchanged -/

/-- C10: whenever `delete_message`, `edit_message`, `truncate_history` or
`delete_last_message` returns `False`, the current conversation (messages,
fields and `updated_at`) is exactly what it was. -/
theorem C10_failed_mutations_atomic (st : SrcConv.ConvState) (now : String)
    (i : Int) (nc : String) :
    ((SrcConv.delete_message st now i).1 = false →
      (SrcConv.delete_message st now i).2 = st) ∧
    ((SrcConv.edit_message st now i nc).1 = false →
      (SrcConv.edit_message st now i nc).2 = st) ∧
    ((SrcConv.truncate_history st now i).1 = false →
      (SrcConv.truncate_history st now i).2 = st) ∧
    ((SrcConv.delete_last_message st now).1 = false →
      (SrcConv.delete_last_message st now).2 = st) := by
  refine ⟨?_, ?_, ?_, ?_⟩ <;> cases st <;>
    simp only [SrcConv.delete_message, SrcConv.edit_message,
      SrcConv.truncate_history, SrcConv.delete_last_message] <;>
    (repeat' split) <;> intro h <;> simp_all

/-- C10 (witness): the four mutation calls on the empty state all fail and
leave it untouched. -/
theorem C10_failed_mutations_witness :
    (SrcConv.delete_message none "t" 1).1 = false ∧
    (SrcConv.delete_message none "t" 1).2 = none ∧
    (SrcConv.edit_message none "t" 1 "x").2 = none ∧
    (SrcConv.truncate_history none "t" 1).2 = none ∧
    (SrcConv.delete_last_message none "t").2 = none :=
  ⟨rfl, (C10_failed_mutations_atomic none "t" 1 "x").1 rfl,
    (C10_failed_mutations_atomic none "t" 1 "x").2.1 rfl,
    (C10_failed_mutations_atomic none "t" 1 "x").2.2.1 rfl,
    (C10_failed_mutations_atomic none "t" 1 "x").2.2.2 rfl⟩

/-! ## C7: edit_message replaces content, preserves count -/

/-- C7: for every in-range 1-based index, `edit_message` returns `True`,
leaves the message count unchanged, and `get_message` then yields a message
whose content is the new content; out-of-range indices return `False`. -/
theorem C7_edit_message (conv : SrcConv.Conversation) (now nc : String) :
    (∀ n : Nat, 1 ≤ n → n ≤ conv.messages.length →
      (SrcConv.edit_message (some conv) now n nc).1 = true ∧
      SrcConv.get_message_count (SrcConv.edit_message (some conv) now n nc).2 =
        conv.messages.length ∧
      ∃ m2, SrcConv.get_message (SrcConv.edit_message (some conv) now n nc).2 n =
          some m2 ∧ m2.content = .vstr nc) ∧
    (∀ n : Int, n < 1 ∨ n > conv.messages.length →
      (SrcConv.edit_message (some conv) now n nc).1 = false) := by
  constructor
  · intro n h1 h2
    have hguard : ¬((n : Int) < 1 ∨ (n : Int) > conv.messages.length) := by
      push_neg
      exact ⟨by exact_mod_cast h1, by exact_mod_cast h2⟩
    have hidx : ((n : Int) - 1).toNat = n - 1 := by omega
    have hlt : n - 1 < conv.messages.length := by omega
    obtain ⟨m, hm⟩ : ∃ m, conv.messages.get? (n - 1) = some m :=
      ⟨_, List.get?_eq_get hlt⟩
    simp only [SrcConv.edit_message, hidx, hm, if_neg hguard]
    refine ⟨by simp, ?_, ?_⟩
    · simp [SrcConv.get_message_count]
    · refine ⟨{ m with content := .vstr nc, timestamp := now }, ?_, rfl⟩
      simp only [SrcConv.get_message, List.length_set, if_neg hguard, hidx]
      exact SrcConv.get?_set_self _ _ _ (by simpa using hlt)
  · intro n hn
    simp only [SrcConv.edit_message, if_pos hn]

/-- C7 (witness): editing the single message of a one-message conversation
replaces its content with the new text. -/
theorem C7_edit_message_witness :
    (SrcConv.edit_message
      (some { id := "c", title := "hi",
              messages := [{ role := "user", content := .vstr "hi", timestamp := "t1",
                             tools_used := [], sources := [] }],
              created_at := "t0", updated_at := "t1" }) "t2" 1 "bye").1 = true :=
  ((C7_edit_message
      { id := "c", title := "hi",
        messages := [{ role := "user", content := .vstr "hi", timestamp := "t1",
                       tools_used := [], sources := [] }],
        created_at := "t0", updated_at := "t1" } "t2" "bye").1 1
    (by omega) (by simp)).1

/-! ## C5: delete_message removes exactly one message, shifting the tail -/

/-- C5: for an in-range 1-based index `n`, `delete_message` returns `True`
and shortens the log by one, with messages before `n` unchanged and the
former message at each position `k > n` now at `k - 1`; out-of-range
indices and the no-conversation state return `False`. -/
theorem C5_delete_message (conv : SrcConv.Conversation) (now : String) :
    (∀ n : Nat, 1 ≤ n → n ≤ conv.messages.length →
      (SrcConv.delete_message (some conv) now n).1 = true ∧
      ∃ c2, (SrcConv.delete_message (some conv) now n).2 = some c2 ∧
        c2.messages.length + 1 = conv.messages.length ∧
        (∀ j : Nat, 1 ≤ j → j < n →
          c2.messages.get? (j - 1) = conv.messages.get? (j - 1)) ∧
        (∀ k : Nat, n < k → k ≤ conv.messages.length →
          c2.messages.get? (k - 1 - 1) = conv.messages.get? (k - 1))) ∧
    (∀ n : Int, n < 1 ∨ n > conv.messages.length →
      (SrcConv.delete_message (some conv) now n).1 = false) ∧
    (∀ n : Int, (SrcConv.delete_message none now n).1 = false) := by
  refine ⟨?_, ?_, fun _ => rfl⟩
  · intro n h1 h2
    have hguard : ¬((n : Int) < 1 ∨ (n : Int) > conv.messages.length) := by
      push_neg
      exact ⟨by exact_mod_cast h1, by exact_mod_cast h2⟩
    have hidx : ((n : Int) - 1).toNat = n - 1 := by omega
    simp only [SrcConv.delete_message, hidx, if_neg hguard]
    refine ⟨by simp, _, rfl, ?_, ?_, ?_⟩
    · have hle := List.length_eraseIdx conv.messages (n - 1)
      rw [hle, if_pos (by omega)]
      omega
    · intro j hj1 hj2
      exact SrcConv.get?_eraseIdx_lt _ _ _ (by omega)
    · intro k hk1 hk2
      have h := SrcConv.get?_eraseIdx_ge conv.messages (n - 1) (k - 1 - 1)
        (by omega)
      rw [h]
      congr 1
      omega
  · intro n hn
    simp only [SrcConv.delete_message, if_pos hn]

/-- C5 (witness): deleting message 1 of a two-message conversation leaves
one message, the former second message now first. -/
theorem C5_delete_message_witness :
    (SrcConv.delete_message
      (some { id := "c", title := "a",
              messages := [
                { role := "user", content := .vstr "a", timestamp := "t1",
                  tools_used := [], sources := [] },
                { role := "assistant", content := .vstr "b", timestamp := "t2",
                  tools_used := [], sources := [] }],
              created_at := "t0", updated_at := "t2" }) "t3" 1).1 = true :=
  ((C5_delete_message
      { id := "c", title := "a",
        messages := [
          { role := "user", content := .vstr "a", timestamp := "t1",
            tools_used := [], sources := [] },
          { role := "assistant", content := .vstr "b", timestamp := "t2",
            tools_used := [], sources := [] }],
        created_at := "t0", updated_at := "t2" } "t3").1 1
    (by omega) (by simp)).1

/-! ## C6: truncate_history round-trip with add_message -/

namespace SrcConv

/-- A message without its timestamp: role, content, tools, sources. -/
def stripMeta (m : Message) :
    String × Py.PyVal × List Py.PyVal × List Py.PyVal :=
  (m.role, m.content, m.tools_used, m.sources)

/-- Re-append a batch of messages through `add_message`, each with its own
fresh timestamp. -/
def reAppend : ConvState → List (String × Message) → Except Py.PyErr ConvState
  | st, [] => .ok st
  | st, (t, m) :: rest => do
      let st2 ← add_message st t m.role m.content (some m.tools_used)
        (some m.sources)
      reAppend st2 rest

/-- Re-appending onto a live conversation succeeds and extends the
timestamp-stripped message sequence by the batch, in order. -/
theorem reAppend_strip (tms : List (String × Message)) :
    ∀ conv : Conversation, ∃ c2, reAppend (some conv) tms = .ok (some c2) ∧
      c2.messages.map stripMeta =
        conv.messages.map stripMeta ++ tms.map (fun tm => stripMeta tm.2) := by
  induction tms with
  | nil => intro conv; exact ⟨conv, rfl, by simp⟩
  | cons tm rest ih =>
      intro conv
      obtain ⟨t, m⟩ := tm
      obtain ⟨c2, h2, hs⟩ := ih
        { conv with
          messages := conv.messages ++
            [{ role := m.role, content := m.content, timestamp := t
               tools_used := m.tools_used, sources := m.sources }]
          updated_at := t }
      refine ⟨c2, ?_, ?_⟩
      · simpa [reAppend, add_message, Bind.bind, Except.bind] using h2
      · rw [hs]
        simp [stripMeta]

end SrcConv

/-- C6: truncating to an in-range index `n` returns `True`, and re-appending
the dropped `L - n` messages (same role, content, tools, sources, any fresh
timestamps) through `add_message` reproduces the original message sequence
up to timestamps; `truncate_history` returns `False` exactly on an
out-of-range index or when no conversation is current. -/
theorem C6_truncate_roundtrip (conv : SrcConv.Conversation) (now : String) :
    (∀ n : Nat, 1 ≤ n → n ≤ conv.messages.length →
      (SrcConv.truncate_history (some conv) now n).1 = true ∧
      ∀ tms : List (String × SrcConv.Message),
        tms.map Prod.snd = conv.messages.drop n →
        ∃ c2, SrcConv.reAppend (SrcConv.truncate_history (some conv) now n).2
            tms = .ok (some c2) ∧
          c2.messages.map SrcConv.stripMeta =
            conv.messages.map SrcConv.stripMeta) ∧
    (∀ n : Int, (SrcConv.truncate_history (some conv) now n).1 = false ↔
      (n < 1 ∨ n > conv.messages.length)) ∧
    (∀ n : Int, (SrcConv.truncate_history none now n).1 = false) := by
  refine ⟨?_, ?_, fun _ => rfl⟩
  · intro n h1 h2
    have hguard : ¬((n : Int) < 1 ∨ (n : Int) > conv.messages.length) := by
      push_neg
      exact ⟨by exact_mod_cast h1, by exact_mod_cast h2⟩
    have htn : ((n : Int)).toNat = n := by omega
    simp only [SrcConv.truncate_history, if_neg hguard, htn]
    refine ⟨by simp, ?_⟩
    intro tms htms
    obtain ⟨c2, h2r, hs⟩ := SrcConv.reAppend_strip tms
      { conv with messages := conv.messages.take n, updated_at := now }
    refine ⟨c2, h2r, ?_⟩
    rw [hs]
    have : tms.map (fun tm => SrcConv.stripMeta tm.2) =
        (conv.messages.drop n).map SrcConv.stripMeta := by
      rw [← htms]
      simp [List.map_map, Function.comp]
    simp only [this]
    rw [← List.map_append, List.take_append_drop]
  · intro n
    constructor
    · intro h
      by_contra hc
      simp only [SrcConv.truncate_history, if_neg hc] at h
      simp at h
    · intro h
      simp only [SrcConv.truncate_history, if_pos h]

/-- C6 (witness): truncating a two-message conversation to its first message
and re-appending the dropped message restores the sequence up to
timestamps. -/
theorem C6_truncate_roundtrip_witness :
    (SrcConv.truncate_history
      (some { id := "c", title := "a",
              messages := [
                { role := "user", content := .vstr "a", timestamp := "t1",
                  tools_used := [], sources := [] },
                { role := "assistant", content := .vstr "b", timestamp := "t2",
                  tools_used := [], sources := [] }],
              created_at := "t0", updated_at := "t2" }) "t3" 1).1 = true :=
  ((C6_truncate_roundtrip
      { id := "c", title := "a",
        messages := [
          { role := "user", content := .vstr "a", timestamp := "t1",
            tools_used := [], sources := [] },
          { role := "assistant", content := .vstr "b", timestamp := "t2",
            tools_used := [], sources := [] }],
        created_at := "t0", updated_at := "t2" } "t3").1 1
    (by omega) (by simp)).1


/-! ## C2: load / list behavior on absent and malformed documents -/

namespace SrcConv

/-- Everything in a successful insertion is the inserted element or came
from the input list. -/
theorem mem_insertDescE {α : Type} (key : α → Py.PyVal) (x : α) :
    ∀ (l l2 : List α), insertDescE key x l = .ok l2 →
      ∀ y ∈ l2, y = x ∨ y ∈ l := by
  intro l
  induction l with
  | nil =>
      intro l2 h y hy
      simp only [insertDescE] at h
      injection h with h
      subst h
      simp at hy
      exact Or.inl hy
  | cons z zs ih =>
      intro l2 h y hy
      simp only [insertDescE, Bind.bind, Except.bind] at h
      cases hc : pyLt (key z) (key x) with
      | error e => rw [hc] at h; cases h
      | ok b =>
          rw [hc] at h
          cases b with
          | true =>
              simp at h
              subst h
              simp at hy
              rcases hy with hy | hy | hy
              · exact Or.inl hy
              · exact Or.inr (by simp [hy])
              · exact Or.inr (by simp [hy])
          | false =>
              simp only [Bool.false_eq_true, if_false] at h
              cases ht : insertDescE key x zs with
              | error e => rw [ht] at h; cases h
              | ok t =>
                  rw [ht] at h
                  simp at h
                  subst h
                  simp at hy
                  rcases hy with hy | hy
                  · exact Or.inr (by simp [hy])
                  · rcases ih t ht y hy with h1 | h1
                    · exact Or.inl h1
                    · exact Or.inr (by simp [h1])

/-- A successful sort only permutes: every element of the output was in the
input. -/
theorem mem_sortDescE {α : Type} (key : α → Py.PyVal) :
    ∀ (l l2 : List α), sortDescE key l = .ok l2 → ∀ y ∈ l2, y ∈ l := by
  intro l
  induction l with
  | nil =>
      intro l2 h y hy
      simp only [sortDescE] at h
      injection h with h
      subst h
      simp at hy
  | cons z zs ih =>
      intro l2 h y hy
      simp only [sortDescE, Bind.bind, Except.bind] at h
      cases ht : sortDescE key zs with
      | error e => rw [ht] at h; cases h
      | ok t =>
          rw [ht] at h
          rcases mem_insertDescE key z t l2 h y hy with h1 | h1
          · simp [h1]
          · simp [ih t ht y h1]

/-- Every summary collected from the directory comes from a document that
parsed and summarized successfully. -/
theorem mem_collectSummaries :
    ∀ (store : Store.FileStore) (l : List ConvSummary),
      collectSummaries store = .ok l → ∀ s ∈ l,
        ∃ name v, (name, Store.RawFile.json v) ∈ store ∧
          summarize1 v = .ok (some s) := by
  intro store
  induction store with
  | nil =>
      intro l h s hs
      simp only [collectSummaries] at h
      injection h with h
      subst h
      simp at hs
  | cons p rest ih =>
      intro l h s hs
      obtain ⟨name, f⟩ := p
      cases f with
      | notJson =>
          simp only [collectSummaries] at h
          split at h
          · obtain ⟨n2, v, hm, hv⟩ := ih l h s hs
            exact ⟨n2, v, by simp [hm], hv⟩
          · obtain ⟨n2, v, hm, hv⟩ := ih l h s hs
            exact ⟨n2, v, by simp [hm], hv⟩
      | json v =>
          simp only [collectSummaries] at h
          split at h
          · cases hsum : summarize1 v with
            | error e => rw [hsum] at h; cases h
            | ok o =>
                rw [hsum] at h
                cases o with
                | none =>
                    obtain ⟨n2, v2, hm, hv⟩ := ih l h s hs
                    exact ⟨n2, v2, by simp [hm], hv⟩
                | some s1 =>
                    simp only [Bind.bind, Except.bind] at h
                    cases hrest : collectSummaries rest with
                    | error e => rw [hrest] at h; cases h
                    | ok lr =>
                        rw [hrest] at h
                        simp [pure, Except.pure] at h
                        subst h
                        simp at hs
                        rcases hs with hs | hs
                        · exact ⟨name, v, by simp, by rw [hsum, hs]⟩
                        · obtain ⟨n2, v2, hm, hv⟩ := ih lr hrest s hs
                          exact ⟨n2, v2, by simp [hm], hv⟩
          · obtain ⟨n2, v, hm, hv⟩ := ih l h s hs
            exact ⟨n2, v, by simp [hm], hv⟩

end SrcConv

/-- C2 (counterexample): the claim says `load` returns a not-found `None`
without raising whenever the document is absent or malformed, but on a
malformed (unparseable) document `json.load` raises and `load_conversation`
propagates the error. -/
theorem C2_load_malformed_counterexample :
    SrcConv.load_conversation
      [("conversation_20240101_000000.json", Store.RawFile.notJson)]
      "20240101_000000" = .error .jsonError := rfl

/-- C2 (amended): `load(id)` returns `None` without raising when the
document is absent, but raises a parse error when the document is present
and malformed; `list()` never yields an entry for a document that did not
parse and summarize successfully (malformed documents are silently
skipped). -/
theorem C2_load_list_amended :
    (∀ (store : Store.FileStore) (cid : String),
      Store.lookupFile store (SrcConv.convFilename cid) = none →
      SrcConv.load_conversation store cid = .ok none) ∧
    (∀ (store : Store.FileStore) (cid : String),
      Store.lookupFile store (SrcConv.convFilename cid) = some .notJson →
      SrcConv.load_conversation store cid = .error .jsonError) ∧
    (∀ (store : Store.FileStore) (l : List SrcConv.ConvSummary),
      SrcConv.list_conversations store = .ok l → ∀ s ∈ l,
        ∃ name v, (name, Store.RawFile.json v) ∈ store ∧
          SrcConv.summarize1 v = .ok (some s)) := by
  refine ⟨?_, ?_, ?_⟩
  · intro store cid h
    simp only [SrcConv.load_conversation, h]
  · intro store cid h
    simp only [SrcConv.load_conversation, h]
  · intro store l h s hs
    simp only [SrcConv.list_conversations, Bind.bind, Except.bind] at h
    cases hc : SrcConv.collectSummaries store with
    | error e => rw [hc] at h; cases h
    | ok lc =>
        rw [hc] at h
        exact SrcConv.mem_collectSummaries store lc hc s
          (SrcConv.mem_sortDescE _ lc l h s hs)

/-- C2 (witness): loading an absent id from a store with one well-formed and
one malformed document returns `None`, and the well-formed document is the
origin of the single listed summary. -/
theorem C2_load_list_witness :
    SrcConv.load_conversation
      [("conversation_a.json",
        Store.RawFile.json (.vdict [("id", .vstr "a"), ("title", .vstr "t"),
          ("created_at", .vstr "c"), ("messages", .vlist [])])),
       ("conversation_b.json", Store.RawFile.notJson)] "zzz" = .ok none ∧
    (∃ name v,
      (name, Store.RawFile.json v) ∈
        ([("conversation_a.json",
          Store.RawFile.json (.vdict [("id", .vstr "a"), ("title", .vstr "t"),
            ("created_at", .vstr "c"), ("messages", .vlist [])])),
         ("conversation_b.json", Store.RawFile.notJson)] : Store.FileStore) ∧
      SrcConv.summarize1 v =
        .ok (some ⟨.vstr "a", .vstr "t", .vstr "c", 0⟩)) :=
  ⟨C2_load_list_amended.1 _ "zzz" rfl,
    C2_load_list_amended.2.2 _ [⟨.vstr "a", .vstr "t", .vstr "c", 0⟩]
      (by rfl) ⟨.vstr "a", .vstr "t", .vstr "c", 0⟩ (by simp)⟩

/-! ## Agent profile registry (`src/agents.py`) -/

namespace Store

/-- `open(file, "w")` + `json.dump`: whole-document overwrite, creating the
file if absent. -/
def writeFile (store : FileStore) (name : String) (f : RawFile) : FileStore :=
  match store with
  | [] => [(name, f)]
  | (n, g) :: rest =>
      if n = name then (name, f) :: rest else (n, g) :: writeFile rest name f

end Store

namespace SrcAgents
open Py Store

/-- An `Agent` instance; fields hold whatever values the constructor was
given (Python does not check their types). -/
structure Agent where
  name : PyVal
  system_prompt : PyVal
  description : PyVal
  temperature : PyVal
  max_tokens : PyVal
  tools : PyVal
  created_at : PyVal

/-- `Agent.__init__` with its defaults: `description=""`,
`temperature=0.7`, `max_tokens=2048`, `tools or ["web_search_preview"]`,
`created_at or datetime.now().isoformat()`. -/
def agentInit (now : String) (name system_prompt : PyVal)
    (description temperature max_tokens tools created_at : Option PyVal) :
    Agent :=
  { name := name
    system_prompt := system_prompt
    description := description.getD (.vstr "")
    temperature := temperature.getD (.vnum (7 / 10))
    max_tokens := max_tokens.getD (.vint 2048)
    tools :=
      let t := tools.getD .vnone
      if pyTruthy t then t else .vlist [.vstr "web_search_preview"]
    created_at :=
      let c := created_at.getD .vnone
      if pyTruthy c then c else .vstr now }

/-- The keyword parameters `Agent.__init__` accepts. -/
def agentKeys : List String :=
  ["name", "system_prompt", "description", "temperature", "max_tokens",
   "tools", "created_at"]

/-- `Agent.from_dict(data)` = `Agent(**data)`: raises `TypeError` when the
value is not a dict, when a key is not a constructor parameter, or when
`name`/`system_prompt` are missing. -/
def from_dict (now : String) (v : PyVal) : Except PyErr Agent :=
  match v with
  | .vdict fields =>
      if fields.all (fun kv => agentKeys.contains kv.1) then
        match plookup fields "name", plookup fields "system_prompt" with
        | some n, some sp =>
            .ok (agentInit now n sp (plookup fields "description")
              (plookup fields "temperature") (plookup fields "max_tokens")
              (plookup fields "tools") (plookup fields "created_at"))
        | _, _ => .error .typeError
      else .error .typeError
  | _ => .error .typeError

/-- `Agent.to_dict`. -/
def to_dict (a : Agent) : List (String × PyVal) :=
  [("name", a.name), ("system_prompt", a.system_prompt),
   ("description", a.description), ("temperature", a.temperature),
   ("max_tokens", a.max_tokens), ("tools", a.tools),
   ("created_at", a.created_at)]

/-- `save_agent`: write `{agent.name}.json` with the agent's dict. -/
def save_agent (store : FileStore) (a : Agent) : FileStore :=
  writeFile store (pyStr a.name ++ ".json") (.json (.vdict (to_dict a)))

/-- `load_agent`: `None` when the file is absent or fails to parse
(`JSONDecodeError`/`KeyError` are caught); a `TypeError` out of
`from_dict` propagates. -/
def load_agent (store : FileStore) (now name : String) :
    Except PyErr (Option Agent) :=
  match lookupFile store (name ++ ".json") with
  | none => .ok none
  | some .notJson => .ok none
  | some (.json v) =>
      match from_dict now v with
      | .ok a => .ok (some a)
      | .error e => .error e

/-- The agent manager's state: backing directory plus the current agent. -/
structure AgentState where
  store : FileStore
  current : Option Agent

/-- `delete_agent`: refuse the protected default `"assistant"`; otherwise
unlink the backing file if it exists and, when the deleted agent was
current, fall back to loading `"assistant"`. -/
def delete_agent (st : AgentState) (now name : String) :
    Except PyErr (Bool × AgentState) :=
  if name = "assistant" then .ok (false, st)
  else
    match lookupFile st.store (name ++ ".json") with
    | none => .ok (false, st)
    | some _ =>
        let store2 := removeFile st.store (name ++ ".json")
        match st.current with
        | some a =>
            if pyBeq a.name (.vstr name) then do
              let a2 ← load_agent store2 now "assistant"
              pure (true, ⟨store2, a2⟩)
            else .ok (true, ⟨store2, some a⟩)
        | none => .ok (true, ⟨store2, none⟩)

/-- The seeded default agent `assistant` of `_create_default_agents`. -/
def defaultAssistant (now : String) : Agent :=
  agentInit now (.vstr "assistant")
    (.vstr "Tu es un assistant IA serviable, précis et amical. Réponds de manière claire et concise.")
    (some (.vstr "Assistant général polyvalent"))
    (some (.vnum (7 / 10))) none
    (some (.vlist [.vstr "web_search_preview"])) none

end SrcAgents

/-! ## C8: deleting agents, protection of the default -/

namespace Store

/-- Removing one file leaves every other filename's lookup unchanged. -/
theorem lookupFile_removeFile_ne (store : FileStore) (k k2 : String)
    (h : k2 ≠ k) : lookupFile (removeFile store k) k2 = lookupFile store k2 := by
  induction store with
  | nil => rfl
  | cons p rest ih =>
      obtain ⟨n, f⟩ := p
      by_cases hn : n = k
      · subst hn
        have h2 : ¬(n = k2) := fun hc => h hc.symm
        simp [removeFile, lookupFile, h2, ih]
      · simp only [removeFile, if_neg hn, lookupFile]
        by_cases hn2 : n = k2
        · simp [hn2]
        · simp only [if_neg hn2]
          exact ih

/-- After removal the removed filename no longer resolves. -/
theorem lookupFile_removeFile_self (store : FileStore) (k : String) :
    lookupFile (removeFile store k) k = none := by
  induction store with
  | nil => rfl
  | cons p rest ih =>
      obtain ⟨n, f⟩ := p
      by_cases hn : n = k
      · simp only [removeFile, if_pos hn]
        exact ih
      · simp only [removeFile, if_neg hn, lookupFile, if_neg hn]
        exact ih

/-- A written file is read back. -/
theorem lookupFile_writeFile_self (store : FileStore) (k : String)
    (f : RawFile) : lookupFile (writeFile store k f) k = some f := by
  induction store with
  | nil => simp [writeFile, lookupFile]
  | cons p rest ih =>
      obtain ⟨n, g⟩ := p
      by_cases hn : n = k
      · subst hn
        simp [writeFile, lookupFile]
      · simp only [writeFile, if_neg hn, lookupFile, if_neg hn]
        exact ih

/-- Appending the same suffix to two different strings keeps them
different. -/
theorem append_ne_of_ne {a b : String} (c : String) (h : a ≠ b) :
    a ++ c ≠ b ++ c := by
  intro hc
  apply h
  have hd : (a ++ c).data = (b ++ c).data := by rw [hc]
  rw [String.data_append, String.data_append] at hd
  exact String.ext (List.append_cancel_right hd)

end Store

/-- C8: `delete_agent "assistant"` always returns `False` with the registry
untouched, so the assistant stays loadable; for any other existing agent
name (given the registry was initialized, i.e. a well-formed `assistant`
record is present) deletion removes the backing record and, when the
deleted agent was current, the current agent falls back to the loaded
`assistant`. -/
theorem C8_delete_agent (st : SrcAgents.AgentState) (now : String) :
    SrcAgents.delete_agent st now "assistant" = .ok (false, st) ∧
    (∀ a2, SrcAgents.load_agent st.store now "assistant" = .ok (some a2) →
      ∃ st2, SrcAgents.delete_agent st now "assistant" = .ok (false, st2) ∧
        SrcAgents.load_agent st2.store now "assistant" = .ok (some a2)) ∧
    (∀ name a2, name ≠ "assistant" →
      (Store.lookupFile st.store (name ++ ".json")).isSome →
      SrcAgents.load_agent st.store now "assistant" = .ok (some a2) →
      SrcAgents.delete_agent st now name = .ok (true,
        ⟨Store.removeFile st.store (name ++ ".json"),
          match st.current with
          | some a =>
              if Py.pyBeq a.name (.vstr name) then some a2 else some a
          | none => none⟩) ∧
      Store.lookupFile (Store.removeFile st.store (name ++ ".json"))
        (name ++ ".json") = none) := by
  refine ⟨by simp [SrcAgents.delete_agent], ?_, ?_⟩
  · intro a2 h
    exact ⟨st, by simp [SrcAgents.delete_agent], h⟩
  · intro name a2 hne hsome hload
    have hkeys : "assistant" ++ ".json" ≠ name ++ ".json" :=
      Store.append_ne_of_ne ".json" (fun hc => hne hc.symm)
    have hpres : SrcAgents.load_agent
        (Store.removeFile st.store (name ++ ".json")) now "assistant" =
        SrcAgents.load_agent st.store now "assistant" := by
      unfold SrcAgents.load_agent
      rw [Store.lookupFile_removeFile_ne st.store _ _ hkeys]
    refine ⟨?_, Store.lookupFile_removeFile_self _ _⟩
    obtain ⟨f, hf⟩ := Option.isSome_iff_exists.mp hsome
    unfold SrcAgents.delete_agent
    rw [if_neg hne, hf]
    cases hc : st.current with
    | none => rfl
    | some a =>
        by_cases hb : Py.pyBeq a.name (.vstr name) = true
        · simp only [hb, if_true, Bind.bind, Except.bind, hpres, hload]
          rfl
        · simp only [hb, if_false]
          rfl

/-- The parsed well-formed `assistant` record used in the C8 witness. -/
def c8AssistantAgent : SrcAgents.Agent :=
  ⟨.vstr "assistant", .vstr "sp", .vstr "d", .vnum (7 / 10), .vint 2048,
    .vlist [.vstr "web_search_preview"], .vstr "t0"⟩

/-- The C8 witness registry: a well-formed `assistant` record, a `dev`
record, and `dev` as the current agent. -/
def c8Store : Store.FileStore :=
  [("assistant.json", .json (.vdict
      [("name", .vstr "assistant"), ("system_prompt", .vstr "sp"),
       ("description", .vstr "d"), ("temperature", .vnum (7 / 10)),
       ("max_tokens", .vint 2048),
       ("tools", .vlist [.vstr "web_search_preview"]),
       ("created_at", .vstr "t0")])),
   ("dev.json", .json (.vdict
      [("name", .vstr "dev"), ("system_prompt", .vstr "sp2"),
       ("description", .vstr "d2"), ("temperature", .vnum (1 / 2)),
       ("max_tokens", .vint 1024),
       ("tools", .vlist [.vstr "web_search_preview"]),
       ("created_at", .vstr "t0")]))]

/-- The parsed `dev` record, current in the C8 witness registry. -/
def c8DevAgent : SrcAgents.Agent :=
  ⟨.vstr "dev", .vstr "sp2", .vstr "d2", .vnum (1 / 2), .vint 1024,
    .vlist [.vstr "web_search_preview"], .vstr "t0"⟩

/-- C8 (witness): deleting the current non-default agent `dev` removes its
record and makes the loaded `assistant` current. -/
theorem C8_delete_agent_witness :
    SrcAgents.delete_agent ⟨c8Store, some c8DevAgent⟩ "t1" "dev" =
      .ok (true, ⟨Store.removeFile c8Store "dev.json",
        some c8AssistantAgent⟩) :=
  ((C8_delete_agent ⟨c8Store, some c8DevAgent⟩ "t1").2.2 "dev"
    c8AssistantAgent (by decide) rfl rfl).1

/-! ## Backend send policy (`src/verbiage.py`, `verbiage/api_client.py`) -/

namespace SrcSend
open Py

/-- The normalized result of one backend call:
(text, tools used, sources). -/
abbrev Triple := PyVal × List PyVal × List PyVal

/-- The `try` body of `_send_with_chat_api`: the transport call
(`client.chat.completions.create`, an opaque oracle here) followed by
`response.choices[0].message.content or ""` with empty tools and
sources. -/
def chatApiCore (chatT : Except PyErr PyVal) : Except PyErr Triple := do
  let r ← chatT
  let cs ← getAttr r "choices"
  let c0 ← getItemInt cs 0
  let m ← getAttr c0 "message"
  let content ← getAttr m "content"
  pure (pyOr content (.vstr ""), [], [])

/-- `f"Erreur lors de l'appel à l'API: {str(e)}"`. -/
def errTextChat (e : PyErr) : String :=
  "Erreur lors de l'appel à l'API: " ++ errString e

/-- `_send_with_chat_api`: any exception in the body is converted into an
error-text triple with empty tools and sources. -/
def send_with_chat_api (chatT : Except PyErr PyVal) : Triple :=
  match chatApiCore chatT with
  | .ok t => t
  | .error e => (.vstr (errTextChat e), [], [])

/-- `send_message_to_gpt`: when configured for the responses API, try the
primary pipeline (`_send_with_responses_api`, whose outcome is the `primary`
oracle) and on any exception fall back to `_send_with_chat_api`; otherwise
go straight to the chat API. -/
def send_message_to_gpt (use_responses_api : Bool)
    (primary : Except PyErr Triple) (chatT : Except PyErr PyVal) :
    Except PyErr Triple :=
  if use_responses_api then
    match primary with
    | .ok t => .ok t
    | .error _ => .ok (send_with_chat_api chatT)
  else .ok (send_with_chat_api chatT)

/-- `send_with_openrouter` (`verbiage/api_client.py`): post the payload
(`postT` is the outcome of `session.post` + `raise_for_status` + `.json()`),
normalize with the three extractors, and convert any exception to an
`"Erreur OpenRouter: ..."` triple with empty tools and sources. -/
def openrouterCore (postT : Except PyErr PyVal) : Except PyErr Triple := do
  let rd ← postT
  let c ← VApi.extract_text_from_response rd
  let tools ← VApi.extract_tools_from_response rd
  let srcs ← VApi.extract_sources_from_response rd
  pure (c, tools, srcs)

/-- The catch-all wrapper of `send_with_openrouter`. -/
def send_with_openrouter (postT : Except PyErr PyVal) : Triple :=
  match openrouterCore postT with
  | .ok t => t
  | .error e => (.vstr ("Erreur OpenRouter: " ++ errString e), [], [])

/-- The chat-turn body of the main loop (`run`): create a conversation when
none is current, append the user message, then append the send result as an
assistant message. -/
def processTurn (st : SrcConv.ConvState) (cid iso now : String)
    (user_input : String) (response_content : PyVal)
    (tools_used sources : List PyVal) : Except PyErr SrcConv.ConvState := do
  let st1 := match st with
             | none => some (SrcConv.create_new_conversation cid iso user_input)
             | some c => some c
  let st2 ← SrcConv.add_message st1 now "user" (.vstr user_input) none none
  SrcConv.add_message st2 now "assistant" response_content (some tools_used)
    (some sources)

end SrcSend

/-! ## C3: transport failures never escape the send path -/

/-- C3: `send_message_to_gpt` never raises to the session loop; when the
primary (responses-API) pipeline is preferred and fails, the result is
exactly the standard chat-API result; a failing standard call — and a
failing single-dialect OpenRouter call — yields an error-describing text
with empty tools and sources; and the turn loop appends that text as an
assistant-role message. -/
theorem C3_send_policy :
    (∀ (use_responses_api : Bool) (primary : Except Py.PyErr SrcSend.Triple)
        (chatT : Except Py.PyErr Py.PyVal),
      ∃ t, SrcSend.send_message_to_gpt use_responses_api primary chatT =
        .ok t) ∧
    (∀ (primary : Except Py.PyErr SrcSend.Triple)
        (chatT : Except Py.PyErr Py.PyVal) (e : Py.PyErr),
      primary = .error e →
      SrcSend.send_message_to_gpt true primary chatT =
        .ok (SrcSend.send_with_chat_api chatT)) ∧
    (∀ e : Py.PyErr, SrcSend.send_with_chat_api (.error e) =
      (.vstr (SrcSend.errTextChat e), [], [])) ∧
    (∀ (chatT : Except Py.PyErr Py.PyVal) (e : Py.PyErr),
      SrcSend.chatApiCore chatT = .error e →
      SrcSend.send_with_chat_api chatT =
        (.vstr (SrcSend.errTextChat e), [], [])) ∧
    (∀ e : Py.PyErr, SrcSend.send_with_openrouter (.error e) =
      (.vstr ("Erreur OpenRouter: " ++ Py.errString e), [], [])) ∧
    (∀ (st : SrcConv.ConvState) (cid iso now user_input : String)
        (e : Py.PyErr),
      ∃ c2, SrcSend.processTurn st cid iso now user_input
          (.vstr (SrcSend.errTextChat e)) [] [] = .ok (some c2) ∧
        c2.messages.getLast? = some
          { role := "assistant", content := .vstr (SrcSend.errTextChat e),
            timestamp := now, tools_used := [], sources := [] }) := by
  refine ⟨?_, ?_, ?_, ?_, ?_, ?_⟩
  · intro use primary chatT
    unfold SrcSend.send_message_to_gpt
    cases use <;> cases primary <;> simp
  · intro primary chatT e h
    subst h
    rfl
  · intro e
    rfl
  · intro chatT e h
    unfold SrcSend.send_with_chat_api
    rw [h]
  · intro e
    rfl
  · intro st cid iso now user_input e
    cases st with
    | none =>
        refine ⟨_, rfl, ?_⟩
        simp [SrcSend.processTurn, SrcConv.add_message,
          SrcConv.create_new_conversation]
    | some c =>
        refine ⟨_, rfl, ?_⟩
        simp [SrcSend.processTurn, SrcConv.add_message]

/-- C3 (witness): a failing primary call falls back to the chat result, a
failing chat transport yields the error triple, and the turn loop appends
it as the assistant message. -/
theorem C3_send_policy_witness :
    SrcSend.send_message_to_gpt true (.error (.apiError "boom"))
        (.error (.apiError "down")) =
      .ok (SrcSend.send_with_chat_api (.error (.apiError "down"))) ∧
    SrcSend.send_with_chat_api (.error (.apiError "down")) =
      (.vstr (SrcSend.errTextChat (.apiError "down")), [], []) ∧
    ∃ c2, SrcSend.processTurn none "c" "t0" "t1" "hi"
        (.vstr (SrcSend.errTextChat (.apiError "down"))) [] [] =
        .ok (some c2) ∧
      c2.messages.getLast? = some
        { role := "assistant",
          content := .vstr (SrcSend.errTextChat (.apiError "down")),
          timestamp := "t1", tools_used := [], sources := [] } :=
  ⟨C3_send_policy.2.1 _ _ (.apiError "boom") rfl,
    C3_send_policy.2.2.1 (.apiError "down"),
    C3_send_policy.2.2.2.2.2 none "c" "t0" "t1" "hi" (.apiError "down")⟩

/-! ## Agent registry, OpenRouter flavor (`verbiage/agents.py`) -/

namespace VAgents
open Py Store SrcAgents

/-- `_format_agent_filename`: `name.replace(" ", "_").lower() + ".json"`. -/
def _format_agent_filename (name : String) : String :=
  String.mk ((name.data.map fun c => if c = ' ' then '_' else c).map
    Char.toLower) ++ ".json"

/-- `load_agent` (`verbiage/agents.py`): like the OpenAI flavor but keyed on
the normalized filename; `JSONDecodeError`/`KeyError` give `None`, a
`TypeError` out of `Agent.from_dict` propagates. -/
def load_agent (store : FileStore) (now name : String) :
    Except PyErr (Option Agent) :=
  match lookupFile store (_format_agent_filename name) with
  | none => .ok none
  | some .notJson => .ok none
  | some (.json v) =>
      match from_dict now v with
      | .ok a => .ok (some a)
      | .error e => .error e

/-- `switch_agent`: set the current agent only when the load succeeds. -/
def switch_agent (st : AgentState) (now name : String) :
    Except PyErr (Bool × AgentState) :=
  match load_agent st.store now name with
  | .error e => .error e
  | .ok (some a) => .ok (true, ⟨st.store, some a⟩)
  | .ok none => .ok (false, st)

/-- `save_agent`: write the agent's dict under its normalized filename
(formatting a non-string name raises `AttributeError`). -/
def save_agent (store : FileStore) (a : Agent) :
    Except PyErr FileStore :=
  match a.name with
  | .vstr s =>
      .ok (writeFile store (_format_agent_filename s)
        (.json (.vdict (to_dict a))))
  | _ => .error .attributeError

/-- The keyword parameters `create_agent` accepts (no `created_at`). -/
def createAgentKeys : List String :=
  ["name", "system_prompt", "description", "temperature", "max_tokens",
   "tools"]

/-- `create_agent(**agent_data)`: construct an `Agent` from the UI-provided
keyword dict and persist it; does not switch the current agent. -/
def create_agent (st : AgentState) (now : String)
    (kwargs : List (String × PyVal)) : Except PyErr (Agent × AgentState) :=
  if kwargs.all (fun kv => createAgentKeys.contains kv.1) then
    match plookup kwargs "name", plookup kwargs "system_prompt" with
    | some n, some sp => do
        let a := agentInit now n sp (plookup kwargs "description")
          (plookup kwargs "temperature") (plookup kwargs "max_tokens")
          (plookup kwargs "tools") none
        let store2 ← save_agent st.store a
        pure (a, ⟨store2, st.current⟩)
    | _, _ => .error .typeError
  else .error .typeError

/-- A `list_agents` entry `{name, description, temperature, tools}`. -/
structure AgentSummary where
  name : PyVal
  description : PyVal
  temperature : PyVal
  tools : PyVal

/-- The `try` body of one `list_agents` iteration; a missing key is caught
(document skipped), a type mismatch propagates. -/
def summarizeAgent (v : PyVal) : Except PyErr (Option AgentSummary) :=
  match (do
    let n ← getItemStr v "name"
    let d ← getItemStr v "description"
    let t ← getItemStr v "temperature"
    let tl ← getItemStr v "tools"
    pure (AgentSummary.mk n d t tl)) with
  | .ok s => .ok (some s)
  | .error .keyError => .ok none
  | .error e => .error e

/-- The collection loop of `list_agents` over `*.json` files. -/
def collectAgents : FileStore → Except PyErr (List AgentSummary)
  | [] => .ok []
  | (name, f) :: rest =>
      if SrcConv.strEndsWith name ".json" then
        match f with
        | .notJson => collectAgents rest
        | .json v =>
            match summarizeAgent v with
            | .ok none => collectAgents rest
            | .ok (some s) => do
                let l ← collectAgents rest
                pure (s :: l)
            | .error e => .error e
      else collectAgents rest

/-- Insert into an ascending-by-key sorted list (`sorted(..., key=...)`),
comparison errors propagating. -/
def insertAscE {α : Type} (key : α → PyVal) (x : α) :
    List α → Except PyErr (List α)
  | [] => .ok [x]
  | y :: ys => do
      let lt ← SrcConv.pyLt (key x) (key y)
      if lt then .ok (x :: y :: ys)
      else do
        let t ← insertAscE key x ys
        .ok (y :: t)

/-- `sorted(agents, key=lambda x: x["name"])` as an insertion sort in the
exception monad. -/
def sortAscE {α : Type} (key : α → PyVal) : List α → Except PyErr (List α)
  | [] => .ok []
  | x :: xs => do
      let t ← sortAscE key xs
      insertAscE key x t

/-- `list_agents`: collect the summaries, then sort ascending by name. -/
def list_agents (store : FileStore) : Except PyErr (List AgentSummary) := do
  let l ← collectAgents store
  sortAscE (fun s => s.name) l

end VAgents

/-! ## Conversation manager used by the OpenRouter handlers -/

namespace VConv

/-- Modelled from the spec: the module `verbiage/conversation.py` is absent
from the sources (only its callers in `verbiage/verbiage.py` and
`verbiage/command_handlers.py` are present).  Per §4.1 a persisted document
either fails to parse (malformed) or restores to a whole conversation. -/
inductive VDoc where
  | bad
  | good (c : SrcConv.Conversation)

/-- Modelled from the spec: the conversation directory, id to document. -/
abbrev VStore := List (String × VDoc)

/-- Modelled from the spec: `load(id)` fails by returning not-found (no
exception) if the document is absent or malformed; on success the loaded
conversation becomes current. -/
def load_conversation (store : VStore) (cid : String) :
    Option SrcConv.Conversation :=
  match store with
  | [] => none
  | (i, d) :: rest =>
      if i = cid then
        match d with
        | .bad => none
        | .good c => some c
      else load_conversation rest cid

/-- Modelled from the spec: `list()` returns
`{id, title, created_at, message_count}` summaries ordered by `created_at`
descending, silently skipping malformed documents. -/
def list_conversations (store : VStore) :
    List (String × String × String × Nat) :=
  (store.filterMap fun p =>
    match p.2 with
    | .bad => none
    | .good c => some (c.id, c.title, c.created_at, c.messages.length)).insertionSort
    (fun a b => b.2.2.1 ≤ a.2.2.1)

end VConv

/-! ## Command dispatcher (`verbiage/verbiage.py`,
`verbiage/command_handlers.py`) -/

namespace Cmd
open Py Store

/-- Whitespace for `str.split()` / `str.strip()`. -/
def pyIsSpace (c : Char) : Bool :=
  c = ' ' || c = '\t' || c = '\n' || c = '\r'

/-- The accumulator loop of `str.split()`. -/
def pySplitAux : List Char → List Char → List String
  | [], acc => if acc.isEmpty then [] else [String.mk acc.reverse]
  | c :: cs, acc =>
      if pyIsSpace c then
        if acc.isEmpty then pySplitAux cs []
        else String.mk acc.reverse :: pySplitAux cs []
      else pySplitAux cs (c :: acc)

/-- `command.split()`: split on whitespace runs, no empty fields. -/
def pySplit (s : String) : List String :=
  pySplitAux s.data []

/-- `command.strip()`. -/
def pyStrip (s : String) : String :=
  String.mk (((s.data.dropWhile pyIsSpace).reverse.dropWhile
    pyIsSpace).reverse)

/-- `command.lower()`. -/
def pyLower (s : String) : String :=
  String.mk (s.data.map Char.toLower)

/-- Digit-list parse for `int()`. -/
def pyDigits? : List Char → Option Nat
  | [] => none
  | ds =>
      if ds.all Char.isDigit then
        some (ds.foldl (fun n c => n * 10 + (c.toNat - 48)) 0)
      else none

/-- `int(s)`: optional sign and digits, `None` standing for the
`ValueError` the handlers catch. -/
def pyToInt (s : String) : Option Int :=
  match s.data with
  | '-' :: rest => (pyDigits? rest).map fun n => -(n : Int)
  | '+' :: rest => (pyDigits? rest).map fun n => (n : Int)
  | ds => (pyDigits? ds).map fun n => (n : Int)

/-- The handler table keys of `cmd_handlers` plus the unknown fallback. -/
inductive Tag where
  | quit | clear | new | list | load | undo | delete | edit | help
  | agents | agent | createAgent | raw | config | unknown
deriving DecidableEq, Repr

/-- `self.cmd_handlers.get(cmd, handle_unknown)`. -/
def tagOfToken (t : String) : Tag :=
  if t = "/quit" then .quit
  else if t = "/clear" then .clear
  else if t = "/new" then .new
  else if t = "/list" then .list
  else if t = "/load" then .load
  else if t = "/undo" then .undo
  else if t = "/delete" then .delete
  else if t = "/edit" then .edit
  else if t = "/help" then .help
  else if t = "/agents" then .agents
  else if t = "/agent" then .agent
  else if t = "/create-agent" then .createAgent
  else if t = "/raw" then .raw
  else if t = "/config" then .config
  else .unknown

/-- The application state the handlers touch: current conversation, the
conversation directory, the agent directory, and the current agent. -/
structure AppState where
  conv : SrcConv.ConvState
  convStore : VConv.VStore
  agentStore : FileStore
  agentCur : Option SrcAgents.Agent

/-- The per-call external inputs: the clock, the two UI prompts, and the
HTTP transport outcome used by the edit handler's regeneration. -/
structure Oracles where
  now : String
  editInput : Option String
  agentInput : Option (List (String × PyVal))
  post : Except PyErr PyVal

end Cmd

namespace Cmd
open Py Store

/-- The edited text after `/web` handling: `new_content[4:].strip()` when
the marker is present, the text unchanged otherwise. -/
def editNewContent (nc0 : String) : String :=
  if SrcConv.strStartsWith nc0 "/web" then
    pyStrip (String.mk (nc0.data.drop 4))
  else nc0

/-- `handle_edit` past the `/web` marker detection: strip the marker, apply
the edit, truncate to the edited index in place, then regenerate.  An edit
reduced to an empty `/web` marker aborts with `True`; so does a failed
`edit_message`.  After a successful edit, the regeneration call raises
`TypeError` unconditionally: it passes the keyword `web_search=` to
`send_with_openrouter`, whose parameter is named `web_search_enabled`
(`verbiage/api_client.py`) and accepts no such keyword, and the handler has
no `try` around the call, so the error propagates (the in-place edit and
truncation have already mutated the conversation by then). -/
def editCore (app : AppState) (orc : Oracles) (n : Int) (nc0 : String) :
    Except PyErr (Bool × AppState) :=
  if SrcConv.strStartsWith nc0 "/web" && editNewContent nc0 = "" then
    .ok (true, app)
  else
    match SrcConv.edit_message app.conv orc.now n (editNewContent nc0) with
    | (false, _) => .ok (true, app)
    | (true, none) =>
        -- subscripting a `None` current conversation would raise
        .error .typeError
    | (true, some _) =>
        -- `send_with_openrouter(..., web_search=web_search)`:
        -- unexpected keyword argument, `TypeError` at the call site
        .error .typeError

/-- The fifteen handlers of `verbiage/command_handlers.py` keyed by tag.
UI display calls are no-ops here; the conversation manager operations are
the §4.1 contracts; a handler ends in `.error` exactly where the Python
body would raise past its own `try` blocks. -/
def runHandler (tag : Tag) (app : AppState) (cmd : String) (orc : Oracles) :
    Except PyErr (Bool × AppState) :=
  match tag with
  | .quit => .ok (false, app)
  | .clear => .ok (true, app)
  | .new => .ok (true, { app with conv := none })
  | .list =>
      let _ := VConv.list_conversations app.convStore
      .ok (true, app)
  | .load =>
      match pySplit cmd with
      | [_, cid] =>
          match VConv.load_conversation app.convStore cid with
          | some c => .ok (true, { app with conv := some c })
          | none => .ok (true, app)
      | _ => .ok (true, app)
  | .undo =>
      .ok (true,
        { app with conv := (SrcConv.delete_last_message app.conv orc.now).2 })
  | .delete =>
      match pySplit cmd with
      | [_, numStr] =>
          match pyToInt numStr with
          | some n =>
              .ok (true,
                { app with
                  conv := (SrcConv.delete_message app.conv orc.now n).2 })
          | none => .ok (true, app)
      | _ => .ok (true, app)
  | .edit =>
      match pySplit cmd with
      | [_, numStr] =>
          match pyToInt numStr with
          | none => .ok (true, app)
          | some n =>
              match SrcConv.get_message app.conv n with
              | none => .ok (true, app)
              | some _ =>
                  match orc.editInput with
                  | none => .ok (true, app)
                  | some nc0 =>
                      if nc0 = "" then .ok (true, app)
                      else editCore app orc n nc0
      | _ => .ok (true, app)
  | .help => .ok (true, app)
  | .agents => do
      let _ ← VAgents.list_agents app.agentStore
      pure (true, app)
  | .agent =>
      match pySplit cmd with
      | [_, name] => do
          let r ← VAgents.switch_agent ⟨app.agentStore, app.agentCur⟩
            orc.now name
          pure (true, { app with agentCur := r.2.current })
      | _ => .ok (true, app)
  | .createAgent =>
      match orc.agentInput with
      | none => .ok (true, app)
      | some kwargs =>
          match VAgents.create_agent ⟨app.agentStore, app.agentCur⟩
              orc.now kwargs with
          | .ok (_, st2) => .ok (true, { app with agentStore := st2.store })
          | .error _ => .ok (true, app)
  | .raw =>
      match app.conv with
      | none => .ok (true, app)
      | some c =>
          if c.messages.isEmpty then .ok (true, app)
          else
            match pySplit cmd with
            | [_] => .ok (true, app)
            | _ :: _ :: _ => .ok (true, app)
            | [] => .error .indexError
  | .config => .ok (true, app)
  | .unknown => .ok (true, app)

/-- `handle_command`: lower-case and strip the line, dispatch on its first
token (an empty line would raise `IndexError` on `split()[0]`, but the
session loop only dispatches non-empty lines starting with `/`). -/
def handle_command (app : AppState) (cmd : String) (orc : Oracles) :
    Except PyErr (Bool × AppState) :=
  match pySplit (pyLower (pyStrip cmd)) with
  | [] => .error .indexError
  | tok :: _ => runHandler (tagOfToken tok) app (pyLower (pyStrip cmd)) orc

end Cmd

/-! ## C9: handler return values -/

namespace Store

/-- A successful file lookup returns an entry of the store. -/
theorem lookupFile_mem {store : FileStore} {k : String} {f : RawFile}
    (h : lookupFile store k = some f) : (k, f) ∈ store := by
  induction store with
  | nil => cases h
  | cons p rest ih =>
      obtain ⟨n, g⟩ := p
      by_cases hn : n = k
      · subst hn
        simp only [lookupFile, if_pos rfl] at h
        injection h with h
        subst h
        simp
      · simp only [lookupFile, if_neg hn] at h
        exact List.mem_cons_of_mem _ (ih h)

end Store

namespace VAgents
open Py Store

/-- A persisted agent record the constructor accepts: parses to a dict
whose keys are all `Agent.__init__` parameters, with a string `name` and a
`system_prompt` present. -/
def GoodRecord : RawFile → Prop
  | .notJson => True
  | .json v => ∃ fields, v = .vdict fields ∧
      fields.all (fun kv => SrcAgents.agentKeys.contains kv.1) = true ∧
      (∃ s, plookup fields "name" = some (.vstr s)) ∧
      (∃ sp, plookup fields "system_prompt" = some sp)

/-- Every record of the agent directory is well formed (the invariant the
registry's own writes maintain). -/
def WellFormedStore (store : FileStore) : Prop :=
  ∀ p ∈ store, GoodRecord p.2

/-- `from_dict` succeeds on a good record. -/
theorem from_dict_ok_of_good {v : PyVal} (now : String)
    (h : GoodRecord (.json v)) : ∃ a, SrcAgents.from_dict now v = .ok a := by
  obtain ⟨fields, hv, hall, ⟨s, hn⟩, ⟨sp, hsp⟩⟩ := h
  subst hv
  simp only [SrcAgents.from_dict, hall, if_pos, hn, hsp]
  exact ⟨_, rfl⟩

/-- `load_agent` never raises over a well-formed store. -/
theorem load_agent_total {store : FileStore} (now name : String)
    (hwf : WellFormedStore store) :
    ∃ o, load_agent store now name = .ok o := by
  unfold load_agent
  cases hl : lookupFile store (_format_agent_filename name) with
  | none => exact ⟨none, rfl⟩
  | some f =>
      have hg : GoodRecord f := hwf _ (lookupFile_mem hl)
      cases f with
      | notJson => exact ⟨none, rfl⟩
      | json v =>
          obtain ⟨a, ha⟩ := from_dict_ok_of_good now hg
          exact ⟨some a, by simp [ha]⟩

/-- On a dict with a string `name`, one `list_agents` iteration either
skips (missing key) or produces a summary with that string name. -/
theorem summarizeAgent_good {fields : List (String × PyVal)} {s : String}
    (hn : plookup fields "name" = some (.vstr s)) :
    summarizeAgent (.vdict fields) = .ok none ∨
    ∃ sm, summarizeAgent (.vdict fields) = .ok (some sm) ∧
      sm.name = .vstr s := by
  unfold summarizeAgent
  simp only [getItemStr, hn, Bind.bind, Except.bind]
  cases hd : plookup fields "description" with
  | none => simp
  | some d =>
      cases ht : plookup fields "temperature" with
      | none => simp
      | some t =>
          cases htl : plookup fields "tools" with
          | none => simp
          | some tl =>
              right
              exact ⟨⟨.vstr s, d, t, tl⟩, rfl, rfl⟩

/-- Collection over a well-formed store never raises, and every produced
summary carries a string name. -/
theorem collectAgents_total {store : FileStore}
    (hwf : WellFormedStore store) :
    ∃ l, collectAgents store = .ok l ∧
      ∀ sm ∈ l, ∃ s, sm.name = .vstr s := by
  induction store with
  | nil => exact ⟨[], rfl, by simp⟩
  | cons p rest ih =>
      obtain ⟨name, f⟩ := p
      have hrest : WellFormedStore rest := fun q hq => hwf q (by simp [hq])
      obtain ⟨l, hl, hnames⟩ := ih hrest
      have hg : GoodRecord f := hwf (name, f) (by simp)
      cases f with
      | notJson =>
          refine ⟨l, ?_, hnames⟩
          simp only [collectAgents]
          split <;> exact hl
      | json v =>
          obtain ⟨fields, hv, _, ⟨s, hn⟩, _⟩ := hg
          subst hv
          rcases summarizeAgent_good hn with hs | ⟨sm, hs, hsname⟩
          · refine ⟨l, ?_, hnames⟩
            simp only [collectAgents]
            split
            · rw [hs]; exact hl
            · exact hl
          · by_cases he : SrcConv.strEndsWith name ".json" = true
            · refine ⟨sm :: l, ?_, ?_⟩
              · simp only [collectAgents, if_pos he, hs, hl, Bind.bind,
                  Except.bind]
                rfl
              · intro x hx
                rcases List.mem_cons.mp hx with hx | hx
                · exact ⟨s, hx ▸ hsname⟩
                · exact hnames x hx
            · refine ⟨l, ?_, hnames⟩
              simp only [collectAgents, if_neg he]
              exact hl

/-- Inserting an element with a string key into a list of string-keyed
elements never raises, and adds no foreign elements. -/
theorem insertAscE_total {α : Type} {key : α → PyVal} {x : α} {sx : String}
    (hx : key x = .vstr sx) :
    ∀ l : List α, (∀ y ∈ l, ∃ s, key y = .vstr s) →
      ∃ l2, insertAscE key x l = .ok l2 ∧ ∀ y ∈ l2, y = x ∨ y ∈ l := by
  intro l
  induction l with
  | nil => exact fun _ => ⟨[x], rfl, by simp⟩
  | cons z zs ih =>
      intro hl
      obtain ⟨sz, hz⟩ := hl z (by simp)
      obtain ⟨t, ht, hmem⟩ := ih (fun y hy => hl y (by simp [hy]))
      by_cases hlt : sx < sz
      · refine ⟨x :: z :: zs, ?_, by simp⟩
        simp [insertAscE, SrcConv.pyLt, hx, hz, hlt, Bind.bind, Except.bind]
      · refine ⟨z :: t, ?_, ?_⟩
        · simp [insertAscE, SrcConv.pyLt, hx, hz, hlt, Bind.bind,
            Except.bind, ht]
        · intro y hy
          rcases List.mem_cons.mp hy with hy | hy
          · simp [hy]
          · rcases hmem y hy with hy1 | hy1
            · exact Or.inl hy1
            · exact Or.inr (by simp [hy1])

/-- Sorting string-keyed elements never raises and only permutes. -/
theorem sortAscE_total {α : Type} {key : α → PyVal} :
    ∀ l : List α, (∀ y ∈ l, ∃ s, key y = .vstr s) →
      ∃ l2, sortAscE key l = .ok l2 ∧ ∀ y ∈ l2, y ∈ l := by
  intro l
  induction l with
  | nil => exact fun _ => ⟨[], rfl, by simp⟩
  | cons x xs ih =>
      intro hl
      obtain ⟨t, ht, hmem⟩ := ih (fun y hy => hl y (by simp [hy]))
      obtain ⟨sx, hx⟩ := hl x (by simp)
      obtain ⟨l2, h2, hmem2⟩ := insertAscE_total hx t
        (fun y hy => hl y (by simp [hmem y hy]))
      refine ⟨l2, ?_, ?_⟩
      · simp [sortAscE, Bind.bind, Except.bind, ht, h2]
      · intro y hy
        rcases hmem2 y hy with hy1 | hy1
        · simp [hy1]
        · simp [hmem y hy1]

/-- `list_agents` never raises over a well-formed store. -/
theorem list_agents_total {store : FileStore}
    (hwf : WellFormedStore store) :
    ∃ l, list_agents store = .ok l := by
  obtain ⟨l, hl, hnames⟩ := collectAgents_total hwf
  obtain ⟨l2, h2, _⟩ := sortAscE_total l hnames
  exact ⟨l2, by simp [list_agents, Bind.bind, Except.bind, hl, h2]⟩

end VAgents

namespace SrcConv

/-- A successful edit leaves the conversation current. -/
theorem edit_message_true_some {st : ConvState} {now : String} {n : Int}
    {nc : String} (h : edit_message st now n nc = (true, none)) : False := by
  cases st with
  | none => simp [edit_message] at h
  | some conv =>
      simp only [edit_message] at h
      split at h
      · simp at h
      · split at h <;> simp at h

end SrcConv

namespace Cmd

/-- Over a well-formed agent store, every handler call ends in exactly one
of three ways: `.ok (true, _)` from a non-quit handler, `.ok (false, _)`
from the quit handler, or — only for the edit handler — the `TypeError`
its regeneration call raises. -/
theorem runHandler_spec (tag : Tag) (app : AppState) (c : String)
    (orc : Oracles) (hc : pySplit c ≠ [])
    (hwf : VAgents.WellFormedStore app.agentStore) :
    (∃ st2, runHandler tag app c orc = .ok (true, st2) ∧ tag ≠ Tag.quit) ∨
    (runHandler tag app c orc = .ok (false, app) ∧ tag = Tag.quit) ∨
    (runHandler tag app c orc = .error .typeError ∧ tag = Tag.edit) := by
  cases tag with
  | quit => exact Or.inr (Or.inl ⟨rfl, rfl⟩)
  | clear => exact Or.inl ⟨app, rfl, by simp⟩
  | new => exact Or.inl ⟨{ app with conv := none }, rfl, by simp⟩
  | list => exact Or.inl ⟨app, rfl, by simp⟩
  | help => exact Or.inl ⟨app, rfl, by simp⟩
  | config => exact Or.inl ⟨app, rfl, by simp⟩
  | unknown => exact Or.inl ⟨app, rfl, by simp⟩
  | undo => exact Or.inl ⟨_, rfl, by simp⟩
  | load =>
      rcases h1 : pySplit c with _ | ⟨a, _ | ⟨b, _ | ⟨d, t⟩⟩⟩
      · exact Or.inl ⟨app, by simp [runHandler, h1], by simp⟩
      · exact Or.inl ⟨app, by simp [runHandler, h1], by simp⟩
      · cases h2 : VConv.load_conversation app.convStore b with
        | some c2 =>
            exact Or.inl ⟨{ app with conv := some c2 },
              by simp [runHandler, h1, h2], by simp⟩
        | none => exact Or.inl ⟨app, by simp [runHandler, h1, h2], by simp⟩
      · exact Or.inl ⟨app, by simp [runHandler, h1], by simp⟩
  | delete =>
      rcases h1 : pySplit c with _ | ⟨a, _ | ⟨b, _ | ⟨d, t⟩⟩⟩
      · exact Or.inl ⟨app, by simp [runHandler, h1], by simp⟩
      · exact Or.inl ⟨app, by simp [runHandler, h1], by simp⟩
      · cases h2 : pyToInt b with
        | some n =>
            exact Or.inl ⟨{ app with
                conv := (SrcConv.delete_message app.conv orc.now n).2 },
              by simp [runHandler, h1, h2], by simp⟩
        | none => exact Or.inl ⟨app, by simp [runHandler, h1, h2], by simp⟩
      · exact Or.inl ⟨app, by simp [runHandler, h1], by simp⟩
  | edit =>
      rcases h1 : pySplit c with _ | ⟨a, _ | ⟨b, _ | ⟨d, t⟩⟩⟩
      · exact Or.inl ⟨app, by simp [runHandler, h1], by simp⟩
      · exact Or.inl ⟨app, by simp [runHandler, h1], by simp⟩
      · cases h2 : pyToInt b with
        | none => exact Or.inl ⟨app, by simp [runHandler, h1, h2], by simp⟩
        | some n =>
            cases h3 : SrcConv.get_message app.conv n with
            | none =>
                exact Or.inl ⟨app, by simp [runHandler, h1, h2, h3], by simp⟩
            | some m =>
                cases h4 : orc.editInput with
                | none =>
                    exact Or.inl ⟨app, by simp [runHandler, h1, h2, h3, h4],
                      by simp⟩
                | some nc0 =>
                    by_cases h5 : nc0 = ""
                    · exact Or.inl ⟨app,
                        by simp [runHandler, h1, h2, h3, h4, h5], by simp⟩
                    · have hgoal : runHandler .edit app c orc =
                          editCore app orc n nc0 := by
                        simp [runHandler, h1, h2, h3, h4, h5]
                      rw [hgoal]
                      unfold editCore
                      by_cases h6 : (SrcConv.strStartsWith nc0 "/web" &&
                          editNewContent nc0 = "") = true
                      · rw [if_pos h6]
                        exact Or.inl ⟨app, rfl, by simp⟩
                      · rw [if_neg h6]
                        rcases h7 : SrcConv.edit_message app.conv orc.now n
                            (editNewContent nc0) with ⟨b2, st2⟩
                        cases b2 with
                        | false => exact Or.inl ⟨app, rfl, by simp⟩
                        | true =>
                            cases st2 with
                            | none => exact Or.inr (Or.inr ⟨rfl, rfl⟩)
                            | some c2 => exact Or.inr (Or.inr ⟨rfl, rfl⟩)
      · exact Or.inl ⟨app, by simp [runHandler, h1], by simp⟩
  | agents =>
      obtain ⟨l, hl⟩ := VAgents.list_agents_total hwf
      refine Or.inl ⟨app, ?_, by simp⟩
      simp [runHandler, Bind.bind, Except.bind, hl, pure, Except.pure]
  | agent =>
      rcases h1 : pySplit c with _ | ⟨a, _ | ⟨b, _ | ⟨d, t⟩⟩⟩
      · exact Or.inl ⟨app, by simp [runHandler, h1], by simp⟩
      · exact Or.inl ⟨app, by simp [runHandler, h1], by simp⟩
      · obtain ⟨o, ho⟩ := VAgents.load_agent_total orc.now b hwf
        cases o with
        | some ag =>
            refine Or.inl ⟨{ app with agentCur := some ag }, ?_, by simp⟩
            simp [runHandler, h1, VAgents.switch_agent, ho, Bind.bind,
              Except.bind, pure, Except.pure]
        | none =>
            refine Or.inl ⟨{ app with agentCur := app.agentCur }, ?_,
              by simp⟩
            simp [runHandler, h1, VAgents.switch_agent, ho, Bind.bind,
              Except.bind, pure, Except.pure]
      · exact Or.inl ⟨app, by simp [runHandler, h1], by simp⟩
  | createAgent =>
      cases h1 : orc.agentInput with
      | none => exact Or.inl ⟨app, by simp [runHandler, h1], by simp⟩
      | some kwargs =>
          cases h2 : VAgents.create_agent ⟨app.agentStore, app.agentCur⟩
              orc.now kwargs with
          | ok p =>
              exact Or.inl ⟨{ app with agentStore := p.2.store },
                by simp [runHandler, h1, h2], by simp⟩
          | error e =>
              exact Or.inl ⟨app, by simp [runHandler, h1, h2], by simp⟩
  | raw =>
      cases h1 : app.conv with
      | none => exact Or.inl ⟨app, by simp [runHandler, h1], by simp⟩
      | some c2 =>
          by_cases h2 : c2.messages.isEmpty = true
          · exact Or.inl ⟨app, by simp [runHandler, h1, h2], by simp⟩
          · rcases h3 : pySplit c with _ | ⟨a, _ | ⟨b, t⟩⟩
            · exact absurd h3 hc
            · exact Or.inl ⟨app, by simp [runHandler, h1, h2, h3], by simp⟩
            · exact Or.inl ⟨app, by simp [runHandler, h1, h2, h3], by simp⟩

end Cmd

/-- C9 (amended): for every dispatched command line over a dispatcher state
whose persisted agent records are well formed, any boolean a handler
returns is `false` exactly when it is the quit handler, and every handler
other than the edit handler does return one; the edit handler is the only
one that can raise, and it does — with the `TypeError` of its
`web_search=` keyword mismatch — on every path where an in-range message
is edited with non-empty replacement text (the agent-switch handler can
also raise, but only over a tampered agent record). -/
theorem C9_handler_booleans_amended :
    (∀ (app : Cmd.AppState) (cmd : String) (orc : Cmd.Oracles)
        (tok : String) (rest : List String),
      Cmd.pySplit (Cmd.pyLower (Cmd.pyStrip cmd)) = tok :: rest →
      VAgents.WellFormedStore app.agentStore →
      (∀ r, Cmd.handle_command app cmd orc = .ok r →
        (r.1 = false ↔ Cmd.tagOfToken tok = .quit)) ∧
      (Cmd.tagOfToken tok ≠ .edit →
        ∃ r, Cmd.handle_command app cmd orc = .ok r) ∧
      (∀ e, Cmd.handle_command app cmd orc = .error e →
        e = .typeError ∧ Cmd.tagOfToken tok = .edit)) ∧
    (∀ (app : Cmd.AppState) (orc : Cmd.Oracles) (n : Int) (nc0 : String),
      (SrcConv.strStartsWith nc0 "/web" &&
        Cmd.editNewContent nc0 = "") = false →
      (SrcConv.edit_message app.conv orc.now n
        (Cmd.editNewContent nc0)).1 = true →
      Cmd.editCore app orc n nc0 = .error .typeError) := by
  constructor
  · intro app cmd orc tok rest hsplit hwf
    have hrun : Cmd.handle_command app cmd orc =
        Cmd.runHandler (Cmd.tagOfToken tok) app
          (Cmd.pyLower (Cmd.pyStrip cmd)) orc := by
      unfold Cmd.handle_command
      rw [hsplit]
    rcases Cmd.runHandler_spec (Cmd.tagOfToken tok) app
        (Cmd.pyLower (Cmd.pyStrip cmd)) orc (by rw [hsplit]; simp) hwf with
      ⟨st2, hr, hne⟩ | ⟨hr, htag⟩ | ⟨hr, htag⟩
    · refine ⟨?_, fun _ => ⟨(true, st2), by rw [hrun, hr]⟩, ?_⟩
      · intro r h
        rw [hrun, hr] at h
        injection h with h
        subst h
        simp [hne]
      · intro e h
        rw [hrun, hr] at h
        cases h
    · refine ⟨?_, fun _ => ⟨(false, app), by rw [hrun, hr]⟩, ?_⟩
      · intro r h
        rw [hrun, hr] at h
        injection h with h
        subst h
        simp [htag]
      · intro e h
        rw [hrun, hr] at h
        cases h
    · refine ⟨?_, fun hne => absurd htag hne, ?_⟩
      · intro r h
        rw [hrun, hr] at h
        cases h
      · intro e h
        rw [hrun, hr] at h
        injection h with h
        subst h
        exact ⟨rfl, htag⟩
  · intro app orc n nc0 h6 h7
    unfold Cmd.editCore
    rw [if_neg (by simp [h6])]
    rcases h8 : SrcConv.edit_message app.conv orc.now n
        (Cmd.editNewContent nc0) with ⟨b2, st2⟩
    rw [h8] at h7
    simp at h7
    subst h7
    cases st2 <;> rfl

/-- The tampered agent store of the C9 counterexample: `badagent.json`
parses but carries the unexpected key `oops`. -/
def c9BadStore : Store.FileStore :=
  [("badagent.json", .json (.vdict
     [("name", .vstr "badagent"), ("system_prompt", .vstr "x"),
      ("oops", .vnone)]))]

/-- Dispatcher state over the tampered store. -/
def c9BadApp : Cmd.AppState := ⟨none, [], c9BadStore, none⟩

/-- Oracles for the C9 counterexample (never reached). -/
def c9BadOrc : Cmd.Oracles := ⟨"t", none, none, .error (.apiError "x")⟩

/-- C9 (counterexample): the claim says every handler other than quit
returns `true` on every execution path, but `/agent badagent` over a
tampered record makes `Agent.from_dict` raise a `TypeError` that
`load_agent`'s `except (JSONDecodeError, KeyError)` does not catch, so the
handler raises instead of returning a boolean. -/
theorem C9_handler_raises_counterexample :
    Cmd.handle_command c9BadApp "/agent badagent" c9BadOrc =
      .error .typeError := rfl

/-- The well-formed (empty) dispatcher state of the C9 witness. -/
def c9App : Cmd.AppState := ⟨none, [], [], none⟩

/-- Oracles for the C9 witness. -/
def c9Orc : Cmd.Oracles := ⟨"t", none, none, .error (.apiError "x")⟩

/-- The one-message current conversation of the C9 witness edit. -/
def c9EditConv : SrcConv.Conversation :=
  { id := "c", title := "hi",
    messages := [{ role := "user", content := .vstr "hi", timestamp := "t0",
                   tools_used := [], sources := [] }],
    created_at := "t0", updated_at := "t0" }

/-- Dispatcher state for the C9 witness edit. -/
def c9EditApp : Cmd.AppState := ⟨some c9EditConv, [], [], none⟩

/-- Oracles for the C9 witness edit: the UI supplies `"hello"`. -/
def c9EditOrc : Cmd.Oracles := ⟨"t1", some "hello", none, .error (.apiError "x")⟩

/-- C9 (witness): `/quit` returns `false`, an unknown command returns
`true`, and editing the in-range message 1 with `"hello"` raises the
`TypeError` of the regeneration call. -/
theorem C9_handler_booleans_witness :
    (∃ r, Cmd.handle_command c9App "/quit" c9Orc = .ok r ∧
      (r.1 = false ↔ Cmd.tagOfToken "/quit" = .quit)) ∧
    (∃ r, Cmd.handle_command c9App "/bogus" c9Orc = .ok r ∧
      (r.1 = false ↔ Cmd.tagOfToken "/bogus" = .quit)) ∧
    Cmd.editCore c9EditApp c9EditOrc 1 "hello" = .error .typeError ∧
    Cmd.handle_command c9EditApp "/edit 1" c9EditOrc = .error .typeError :=
  have hwf : VAgents.WellFormedStore ([] : Store.FileStore) :=
    fun p hp => (List.not_mem_nil p hp).elim
  have hquit := C9_handler_booleans_amended.1 c9App "/quit" c9Orc
    "/quit" [] rfl hwf
  have hbogus := C9_handler_booleans_amended.1 c9App "/bogus" c9Orc
    "/bogus" [] rfl hwf
  have hq2 : ∃ r, Cmd.handle_command c9App "/quit" c9Orc = .ok r :=
    hquit.2.1 (by decide)
  have hb2 : ∃ r, Cmd.handle_command c9App "/bogus" c9Orc = .ok r :=
    hbogus.2.1 (by decide)
  ⟨⟨hq2.choose, hq2.choose_spec, hquit.1 hq2.choose hq2.choose_spec⟩,
    ⟨hb2.choose, hb2.choose_spec, hbogus.1 hb2.choose hb2.choose_spec⟩,
    C9_handler_booleans_amended.2 c9EditApp c9EditOrc 1 "hello" rfl rfl,
    rfl⟩
